import Mathlib

/-!
Shallow embedding of `run_sit_e2e.py`: a coordinator (`E2eTests`) that starts a
fixed list of end-to-end scenarios against a remote service via scenario
runners (`E2eTest`), polls their statuses in a bounded loop, and posts one
summary notification to a reporting sink.

Modelling conventions:
* HTTP calls are resolved by an environment of oracles (`Env`): the p-th start
  request, the status request for scenario index k in polling iteration i, and
  the n-th call to `get_time_now` (`clock n`).  A call either raises a
  transport exception (`HttpResult.exn`, mirroring an uncaught
  `requests` exception) or yields a transport status code plus a parsed body.
* Python exceptions are modelled with `Except RunError`: a propagating
  exception aborts the computation and surfaces as `.error`.
* Status payloads: the runner caches `self.status`, initially the empty JSON
  object `{}` (no `e2e_status` key, `StatusPayload.empty`); a fetched body is
  modelled as a payload carrying the nested `e2e_status.status` string
  (`StatusPayload.withStatus s`).  Looking up `status['e2e_status']['status']`
  on the empty payload raises `KeyError`.
* Start bodies are modelled with the two fields the code reads (`id`,
  `Success`); side-effect-only logging is dropped, while the observable
  effects the specification talks about (start calls, status fetches, sleeps,
  the summary notification, the timeout / failure log markers) are recorded in
  an event trace.
-/

/-- Errors a run can raise: a missing dictionary key (`KeyError`), an uncaught
transport exception from the HTTP library, arithmetic on an unset start time
(`TypeError`), and the final `RuntimeError(E2E_RUN_FAILED)` raised by the
`__main__` block. -/
inductive RunError where
  | keyError : RunError
  | transportExn : RunError
  | typeError : RunError
  | runtimeError : RunError
deriving DecidableEq, Repr

/-- Cached status payload of one scenario runner: either the initial empty
object `{}` or a body holding the nested `e2e_status.status` string. -/
inductive StatusPayload where
  | empty : StatusPayload
  | withStatus : String → StatusPayload
deriving DecidableEq, Repr

/-- Evaluate `payload['e2e_status']['status']`; raises `KeyError` on the
initial empty payload. -/
def StatusPayload.lookupStatus : StatusPayload → Except RunError String
  | .empty => .error .keyError
  | .withStatus s => .ok s

/-- Body of a start response, with the two fields `_run_test` reads:
`response.json()['id']` and `response.json()['Success']`. -/
structure StartBody where
  id : String
  success : Bool
deriving DecidableEq, Repr

/-- Outcome of one HTTP request: an uncaught transport exception, or a
response with a transport status code and a parsed JSON body. -/
inductive HttpResult (β : Type) where
  | exn : HttpResult β
  | resp : Nat → β → HttpResult β
deriving DecidableEq, Repr

/-- Environment of oracles resolving the run's external calls:
`startResp p` answers the p-th start request, `statusResp i k` answers the
status request for the k-th started scenario in polling iteration i, and
`clock n` is the value returned by the n-th call to `get_time_now`. -/
structure Env where
  startResp : Nat → HttpResult StartBody
  statusResp : Nat → Nat → HttpResult StatusPayload
  clock : Nat → Nat

/-- Constants from the script. -/
def SUCCESS_STATUS : String := "succeeded"

def RUNNING_STATUS : String := "running"

def FAILED_STATUS : String := "failed"

def NUM_OF_WAIT_ITER : Nat := 15

def SLEEP_TIME : Nat := 30

def TESTS_TO_EXECUTE : List String :=
  ["run_health_checks",
   "run_sanity_check",
   "run_casi_sanity",
   "run_casi_resolve_stats_report",
   "run_tyk_health_check",
   "run_identities_upsert_via_pipeline",
   "run_identities_upsert_for_new_tenant",
   "run_umbrella_end_to_end_v2_test",
   "run_cdfw_end_to_end_test"]

/-- Observable events of a run, in order: a start request for a scenario,
a sleep of a given number of seconds, the start-of-iteration log, a status
fetch (iteration, scenario index), the failure-detected log, the timeout log,
and the summary notification posted to the reporting sink
(title, status text, color, reported elapsed duration). -/
inductive Event where
  | startCall : String → Event
  | sleepEv : Nat → Event
  | iterStart : Nat → Event
  | statusFetch : Nat → Nat → Event
  | failureLog : Event
  | timeoutLog : Event
  | notify : String → String → String → Int → Event
deriving DecidableEq, Repr

/-- One scenario runner (`E2eTest.__init__`): scenario name and run id start
unset, the cached status starts as the empty object. -/
structure E2eTest where
  scenario_name : Option String
  run_id : Option String
  status : StatusPayload
deriving DecidableEq, Repr

/-- Freshly constructed runner (`E2eTest(token, cluster, domain)`). -/
def E2eTest.new : E2eTest :=
  { scenario_name := none, run_id := none, status := .empty }

/-- `E2eTest._run_test`: issue the start request.  On a transport exception
the error propagates.  On a 200 response the run id is recorded
(`self.run_id = response.json()['id']`) before the body's `Success` flag is
consulted; the call returns the flag.  On a non-200 response nothing is
recorded and the call returns false. -/
def E2eTest.runTest (t : E2eTest) (resp : HttpResult StartBody) :
    Except RunError (E2eTest × Bool) :=
  match resp with
  | .exn => .error .transportExn
  | .resp code body =>
    if code = 200 then
      .ok ({ t with run_id := some body.id }, body.success)
    else
      .ok (t, false)

/-- `E2eTest.run`: record the scenario name, then start it. -/
def E2eTest.runScenario (t : E2eTest) (name : String) (resp : HttpResult StartBody) :
    Except RunError (E2eTest × Bool) :=
  E2eTest.runTest { t with scenario_name := some name } resp

/-- `E2eTest.get_status`: fetch the current status.  A transport exception
propagates; on a 200 response the cached status is replaced by the body; on
any other transport status the cached status is left unchanged. -/
def E2eTest.get_status (t : E2eTest) (resp : HttpResult StatusPayload) :
    Except RunError E2eTest :=
  match resp with
  | .exn => .error .transportExn
  | .resp code body =>
    if code = 200 then .ok { t with status := body } else .ok t

/-- Pure image of `get_status` on a non-raising response. -/
def E2eTest.get_status_ok (t : E2eTest) (resp : HttpResult StatusPayload) : E2eTest :=
  match resp with
  | .exn => t
  | .resp code body =>
    if code = 200 then { t with status := body } else t

/-- Coordinator state (`E2eTests.__init__` sets the Python fields; `clockIdx`
is modelling machinery counting the calls to `get_time_now` made so far, so
that `Env.clock` can answer them in order). -/
structure E2eTests where
  all_tests : List E2eTest
  did_succeed : Bool
  start_time : Option Nat
  clockIdx : Nat
deriving DecidableEq, Repr

/-- Freshly constructed coordinator (`E2eTests(token, cluster, domain)`). -/
def E2eTests.new : E2eTests :=
  { all_tests := [], did_succeed := false, start_time := none, clockIdx := 0 }

/-- `E2eTests.print_status`: for each runner, look up
`status['e2e_status']['status']` (raising `KeyError` on the empty payload) and
call `get_time_now` once while formatting the log line.  Returns the clock
index after the calls. -/
def E2eTests.print_status : List E2eTest → Nat → Except RunError Nat
  | [], clk => .ok clk
  | t :: rest, clk =>
    match t.status.lookupStatus with
    | .error e => .error e
    | .ok _ => E2eTests.print_status rest (clk + 1)

/-- Trace of the status fetches of one polling iteration `i` for scenario
indices `k, k+1, …, k+n-1`. -/
def fetchTrace (i : Nat) : Nat → Nat → List Event
  | _, 0 => []
  | k, n + 1 => Event.statusFetch i k :: fetchTrace i (k + 1) n

/-- First phase of a polling iteration (`for test_obj in self.all_tests:
test_obj.get_status()`): fetch every runner's status in order, scenario index
`k` onward, in iteration `i`.  A transport exception aborts the phase. -/
def E2eTests.fetch_all (env : Env) (i : Nat) :
    List E2eTest → Nat → List Event × Except RunError (List E2eTest)
  | [], _ => ([], .ok [])
  | t :: rest, k =>
    match t.get_status (env.statusResp i k) with
    | .error e => ([Event.statusFetch i k], .error e)
    | .ok t' =>
      match E2eTests.fetch_all env i rest (k + 1) with
      | (evs, .error e) => (Event.statusFetch i k :: evs, .error e)
      | (evs, .ok rest') => (Event.statusFetch i k :: evs, .ok (t' :: rest'))

/-- Pure image of the fetch phase when no response raises. -/
def E2eTests.fetch_pure (env : Env) (i : Nat) : List E2eTest → Nat → List E2eTest
  | [], _ => []
  | t :: rest, k =>
    t.get_status_ok (env.statusResp i k) :: E2eTests.fetch_pure env i rest (k + 1)

/-- Second phase of a polling iteration: fold `all_passed` over the runners,
looking up each cached status (a `KeyError` propagates).  On the first status
equal to `FAILED_STATUS`, `print_status` runs and both loops break
(`break_all`).  Returns `(all_passed, break_all, clock index)`.
`all` is the full runner list `self.all_tests` used by `print_status`. -/
def E2eTests.eval_tests (all : List E2eTest) (clk : Nat) :
    List E2eTest → Bool → Except RunError (Bool × Bool × Nat)
  | [], ap => .ok (ap, false, clk)
  | t :: rest, ap =>
    match t.status.lookupStatus with
    | .error e => .error e
    | .ok s =>
      let ap' := ap && (s == SUCCESS_STATUS)
      if s == FAILED_STATUS then
        match E2eTests.print_status all clk with
        | .error e => .error e
        | .ok clk' => .ok (ap', true, clk')
      else
        E2eTests.eval_tests all clk rest ap'

/-- `E2eTests.on_end`: compute the elapsed time (`get_time_now() -
self.start_time`, a `TypeError` if the start time was never set), post the one
summary notification, and log the end marker with a second `get_time_now`
call. -/
def E2eTests.on_end (env : Env) (st : E2eTests) : List Event × Except RunError E2eTests :=
  match st.start_time with
  | none => ([], .error .typeError)
  | some t0 =>
    let nowv := env.clock st.clockIdx
    let elapsed : Int := (nowv : Int) - (t0 : Int)
    let statusStr := if st.did_succeed then "Passed" else "Failed"
    let color := if st.did_succeed then "good" else "danger"
    ([Event.notify "E2E Full Run Ended" statusStr color elapsed],
      .ok { st with clockIdx := st.clockIdx + 2 })

/-- Body of `status_loop`'s `while i < NUM_OF_WAIT_ITER` loop, run with
`fuel = NUM_OF_WAIT_ITER - i` so that exhausted fuel is exactly a false
guard.  Each iteration logs the iteration header, fetches every status,
evaluates them, and either breaks on a detected failure (`break_all`), breaks
with `did_succeed := true` when all passed, or sleeps `SLEEP_TIME` and
continues with `i + 1`.  Returns the trace and the final state with the final
value of `i`. -/
def E2eTests.while_loop (env : Env) :
    Nat → Nat → E2eTests → List Event × Except RunError (E2eTests × Nat)
  | 0, i, st => ([], .ok (st, i))
  | fuel + 1, i, st =>
    match E2eTests.fetch_all env i st.all_tests 0 with
    | (fevs, .error e) => (Event.iterStart (i + 1) :: fevs, .error e)
    | (fevs, .ok tests1) =>
      let st1 := { st with all_tests := tests1 }
      match E2eTests.eval_tests tests1 st1.clockIdx tests1 true with
      | .error e => (Event.iterStart (i + 1) :: fevs, .error e)
      | .ok (_, true, clk1) =>
        (Event.iterStart (i + 1) :: fevs ++ [Event.failureLog],
          .ok ({ st1 with clockIdx := clk1 }, i))
      | .ok (ap, false, clk1) =>
        match E2eTests.print_status tests1 clk1 with
        | .error e => (Event.iterStart (i + 1) :: fevs, .error e)
        | .ok clk2 =>
          let st2 := { st1 with clockIdx := clk2 }
          if ap then
            (Event.iterStart (i + 1) :: fevs, .ok ({ st2 with did_succeed := true }, i))
          else
            match E2eTests.while_loop env fuel (i + 1) st2 with
            | (evs', r) =>
              (Event.iterStart (i + 1) :: fevs ++ Event.sleepEv SLEEP_TIME :: evs', r)

/-- `E2eTests.status_loop`: run the bounded poll loop from `i = 0`; if the
loop exhausted its budget (`i == NUM_OF_WAIT_ITER`) log the timeout marker;
then always run `on_end`. -/
def E2eTests.status_loop (env : Env) (st : E2eTests) : List Event × Except RunError E2eTests :=
  match E2eTests.while_loop env NUM_OF_WAIT_ITER 0 st with
  | (evs, .error e) => (evs, .error e)
  | (evs, .ok (st1, i)) =>
    let evs1 := if i = NUM_OF_WAIT_ITER then evs ++ [Event.timeoutLog] else evs
    match E2eTests.on_end env st1 with
    | (evs2, r) => (evs1 ++ evs2, r)

/-- Start phase of `run_all`: iterate the scenario names in order from
position `p`; each successfully started runner is appended to `all_tests` and
a 5-second courtesy sleep follows; the first start returning false aborts the
phase with flag `false` (the failing runner is not appended); a transport
exception propagates.  Flag `true` means every scenario was started. -/
def E2eTests.start_all (env : Env) :
    Nat → List String → E2eTests → List Event × Except RunError (E2eTests × Bool)
  | _, [], st => ([], .ok (st, true))
  | p, name :: rest, st =>
    match E2eTest.runScenario E2eTest.new name (env.startResp p) with
    | .error e => ([Event.startCall name], .error e)
    | .ok (t, true) =>
      let st1 := { st with all_tests := st.all_tests ++ [t] }
      match E2eTests.start_all env (p + 1) rest st1 with
      | (evs, r) => (Event.startCall name :: Event.sleepEv 5 :: evs, r)
    | .ok (_, false) => ([Event.startCall name], .ok (st, false))

/-- `E2eTests.run_all`: record the start time, start every scenario in order,
and — only if every start succeeded — enter the status loop.  A start that
reports failure returns `did_succeed` (still false) immediately, skipping the
status loop and `on_end`.  Returns the final state and the returned
`did_succeed`. -/
def E2eTests.run_all (env : Env) (names : List String) (st : E2eTests) :
    List Event × Except RunError (E2eTests × Bool) :=
  let t0 := env.clock st.clockIdx
  let st1 := { st with start_time := some t0, clockIdx := st.clockIdx + 1 }
  match E2eTests.start_all env 0 names st1 with
  | (evs, .error e) => (evs, .error e)
  | (evs, .ok (st2, false)) => (evs, .ok (st2, st2.did_succeed))
  | (evs, .ok (st2, true)) =>
    match E2eTests.status_loop env st2 with
    | (evs2, .error e) => (evs ++ evs2, .error e)
    | (evs2, .ok st3) => (evs ++ evs2, .ok (st3, st3.did_succeed))

/-- The `__main__` block: construct a fresh coordinator, run everything, and
raise `RuntimeError(E2E_RUN_FAILED)` if the returned `did_succeed` is false.
`.ok ()` is a zero exit status; `.error _` is a raised exception (non-zero
exit). -/
def main_block (env : Env) (names : List String) : List Event × Except RunError Unit :=
  match E2eTests.run_all env names E2eTests.new with
  | (evs, .error e) => (evs, .error e)
  | (evs, .ok (_, true)) => (evs, .ok ())
  | (evs, .ok (_, false)) => (evs, .error .runtimeError)

/-- Whether an `Except` result is a normal return. -/
def exceptOk {ε α : Type} : Except ε α → Bool
  | .ok _ => true
  | .error _ => false

/-- Event classifiers and counters used by the theorems. -/
def Event.isNotify : Event → Bool
  | .notify _ _ _ _ => true
  | _ => false

def Event.isIterStart : Event → Bool
  | .iterStart _ => true
  | _ => false

def Event.isStartCall : Event → Bool
  | .startCall _ => true
  | _ => false

def Event.isStatusFetch : Event → Bool
  | .statusFetch _ _ => true
  | _ => false

def Event.isPollSleep : Event → Bool
  | .sleepEv n => n == SLEEP_TIME
  | _ => false

def notifyCount (evs : List Event) : Nat := evs.countP Event.isNotify

def iterCount (evs : List Event) : Nat := evs.countP Event.isIterStart

def startCallCount (evs : List Event) : Nat := evs.countP Event.isStartCall

def pollSleepCount (evs : List Event) : Nat := evs.countP Event.isPollSleep

/-- State of the coordinator right after `run_all` has recorded the start
time, i.e. the state in which the start phase begins. -/
def E2eTests.afterTime (env : Env) (st : E2eTests) : E2eTests :=
  { st with start_time := some (env.clock st.clockIdx), clockIdx := st.clockIdx + 1 }

/-- Whether the start phase of a fresh run over `names` completes with every
scenario started (the condition under which `run_all` enters the poll
loop). -/
def startPhaseOk (env : Env) (names : List String) : Bool :=
  match (E2eTests.start_all env 0 names (E2eTests.afterTime env E2eTests.new)).2 with
  | .ok (_, flag) => flag
  | .error _ => false

/-- Sanity environments exercising the embedding on concrete runs. -/
def envImmediateSuccess : Env :=
  { startResp := fun _ => .resp 200 ⟨"rid", true⟩,
    statusResp := fun _ _ => .resp 200 (.withStatus SUCCESS_STATUS),
    clock := fun n => n }

def envAllRunning : Env :=
  { startResp := fun _ => .resp 200 ⟨"rid", true⟩,
    statusResp := fun _ _ => .resp 200 (.withStatus RUNNING_STATUS),
    clock := fun n => n }

def envFirstStartFails : Env :=
  { startResp := fun _ => .resp 500 ⟨"", false⟩,
    statusResp := fun _ _ => .resp 200 (.withStatus RUNNING_STATUS),
    clock := fun n => n }

def envFetchAlwaysFails : Env :=
  { startResp := fun _ => .resp 200 ⟨"rid", true⟩,
    statusResp := fun _ _ => .resp 500 .empty,
    clock := fun n => n }

def envImmediateFailure : Env :=
  { startResp := fun _ => .resp 200 ⟨"rid", true⟩,
    statusResp := fun _ _ => .resp 200 (.withStatus FAILED_STATUS),
    clock := fun n => n }

/-- Trace of a fully successful start phase: one start call and one 5-second
courtesy sleep per scenario. -/
def startTrace : List String → List Event
  | [] => []
  | n :: rest => Event.startCall n :: Event.sleepEv 5 :: startTrace rest

/-- A start response on which `_run_test` reports failure (returns false):
either a non-200 transport status, or a 200 body whose success flag is
false. -/
def startRespFails (r : HttpResult StartBody) : Prop :=
  ∃ code body, r = HttpResult.resp code body ∧ (code ≠ 200 ∨ body.success = false)

/-- Environment in which the first start succeeds and the second start
responds 200 with a false success indicator. -/
def envSecondStartFails : Env :=
  { startResp := fun p => if p = 0 then .resp 200 ⟨"r0", true⟩ else .resp 200 ⟨"r1", false⟩,
    statusResp := fun _ _ => .resp 200 (.withStatus RUNNING_STATUS),
    clock := fun n => n }

/-- Environment whose first polling iteration returns well-formed "running"
statuses and whose every later status fetch fails with a 500 transport
status. -/
def envStaleFetch : Env :=
  { startResp := fun _ => .resp 200 ⟨"rid", true⟩,
    statusResp := fun i _ =>
      if i = 0 then .resp 200 (.withStatus RUNNING_STATUS) else .resp 500 .empty,
    clock := fun n => n }

/-- Status script used by the C7 witness: every scenario reports "running"
in polling iteration 0 and "failed" from iteration 1 on. -/
def failSecondIterScript : Nat → Nat → String :=
  fun i _ => if i = 0 then RUNNING_STATUS else FAILED_STATUS

/-- Environment whose status fetches follow `failSecondIterScript`. -/
def envFailSecondIter : Env :=
  { startResp := fun _ => .resp 200 ⟨"rid", true⟩,
    statusResp := fun i k => .resp 200 (.withStatus (failSecondIterScript i k)),
    clock := fun n => n }

/-! ### Sanity checks evaluating the embedding on concrete inputs -/

example : StatusPayload.lookupStatus .empty = .error .keyError := rfl
example : (E2eTest.runScenario E2eTest.new "a" (.resp 200 ⟨"r1", true⟩)) =
    .ok (⟨some "a", some "r1", .empty⟩, true) := rfl
example : (E2eTest.runScenario E2eTest.new "a" (.resp 200 ⟨"r1", false⟩)) =
    .ok (⟨some "a", some "r1", .empty⟩, false) := rfl
example : (E2eTest.runScenario E2eTest.new "a" (.resp 503 ⟨"r1", true⟩)) =
    .ok (⟨some "a", none, .empty⟩, false) := rfl
example : (E2eTest.runScenario E2eTest.new "a" .exn) = .error .transportExn := rfl
example : E2eTest.get_status ⟨some "a", some "r", .withStatus "running"⟩ (.resp 500 .empty) =
    .ok ⟨some "a", some "r", .withStatus "running"⟩ := rfl

example :
    iterCount (E2eTests.run_all envImmediateSuccess ["a", "b"] E2eTests.new).1 = 1 ∧
    pollSleepCount (E2eTests.run_all envImmediateSuccess ["a", "b"] E2eTests.new).1 = 0 ∧
    notifyCount (E2eTests.run_all envImmediateSuccess ["a", "b"] E2eTests.new).1 = 1 ∧
    exceptOk (E2eTests.run_all envImmediateSuccess ["a", "b"] E2eTests.new).2 = true := by
  decide

example :
    iterCount (E2eTests.run_all envAllRunning ["a"] E2eTests.new).1 = NUM_OF_WAIT_ITER ∧
    pollSleepCount (E2eTests.run_all envAllRunning ["a"] E2eTests.new).1 = NUM_OF_WAIT_ITER ∧
    Event.timeoutLog ∈ (E2eTests.run_all envAllRunning ["a"] E2eTests.new).1 ∧
    notifyCount (E2eTests.run_all envAllRunning ["a"] E2eTests.new).1 = 1 := by
  decide

example :
    notifyCount (E2eTests.run_all envFirstStartFails ["a", "b"] E2eTests.new).1 = 0 ∧
    startCallCount (E2eTests.run_all envFirstStartFails ["a", "b"] E2eTests.new).1 = 1 ∧
    exceptOk (E2eTests.run_all envFirstStartFails ["a", "b"] E2eTests.new).2 = true := by
  decide

example :
    (E2eTests.run_all envFetchAlwaysFails ["a"] E2eTests.new).2 = .error .keyError := by
  rfl

example :
    iterCount (E2eTests.run_all envImmediateFailure ["a", "b"] E2eTests.new).1 = 1 ∧
    pollSleepCount (E2eTests.run_all envImmediateFailure ["a", "b"] E2eTests.new).1 = 0 ∧
    Event.failureLog ∈ (E2eTests.run_all envImmediateFailure ["a", "b"] E2eTests.new).1 ∧
    notifyCount (E2eTests.run_all envImmediateFailure ["a", "b"] E2eTests.new).1 = 1 := by
  decide

example :
    (main_block envFirstStartFails ["a", "b"]).2 = .error .runtimeError := by
  rfl

example :
    (main_block envImmediateSuccess ["a", "b"]).2 = .ok () := by
  rfl

/-! ### Basic lemmas about the runner operations -/

theorem StatusPayload.lookupStatus_ok_iff {p : StatusPayload} {s : String} :
    p.lookupStatus = .ok s ↔ p = .withStatus s := by
  cases p <;> simp [StatusPayload.lookupStatus]

theorem StatusPayload.lookupStatus_of_ne_empty {p : StatusPayload} (h : p ≠ .empty) :
    ∃ s, p.lookupStatus = .ok s := by
  cases p with
  | empty => exact absurd rfl h
  | withStatus s => exact ⟨s, rfl⟩

theorem E2eTest.get_status_eq_ok {t : E2eTest} {r : HttpResult StatusPayload} (h : r ≠ .exn) :
    t.get_status r = .ok (t.get_status_ok r) := by
  cases r with
  | exn => exact absurd rfl h
  | resp code body =>
    by_cases hc : code = 200 <;> simp [E2eTest.get_status, E2eTest.get_status_ok, hc]

theorem E2eTest.get_status_ok_scenario_name (t : E2eTest) (r : HttpResult StatusPayload) :
    (t.get_status_ok r).scenario_name = t.scenario_name := by
  cases r with
  | exn => rfl
  | resp code body => by_cases hc : code = 200 <;> simp [E2eTest.get_status_ok, hc]

theorem E2eTest.get_status_ok_ne_empty {t : E2eTest} {r : HttpResult StatusPayload}
    (hwf : ∀ body, r = .resp 200 body → body ≠ .empty)
    (h : t.status ≠ .empty ∨ ∃ body, r = .resp 200 body ∧ body ≠ .empty) :
    (t.get_status_ok r).status ≠ .empty := by
  cases r with
  | exn =>
    rcases h with h | ⟨body, hbody, _⟩
    · exact h
    · exact absurd hbody (by simp)
  | resp code body =>
    by_cases hc : code = 200
    · subst hc
      simpa [E2eTest.get_status_ok] using hwf body rfl
    · simp only [E2eTest.get_status_ok, if_neg hc]
      rcases h with h | ⟨body', hbody, _⟩
      · exact h
      · injection hbody with h1 _
        exact absurd h1 hc

/-! ### Lemmas about the fetch phase -/

theorem E2eTests.fetch_all_eq_pure (env : Env) (i : Nat) :
    ∀ (tests : List E2eTest) (k : Nat),
      (∀ j, j < tests.length → env.statusResp i (k + j) ≠ .exn) →
      E2eTests.fetch_all env i tests k =
        (fetchTrace i k tests.length, .ok (E2eTests.fetch_pure env i tests k)) := by
  intro tests
  induction tests with
  | nil => intro k _; rfl
  | cons t rest ih =>
    intro k h
    have h0 : env.statusResp i k ≠ .exn := by simpa using h 0 (by simp)
    have hrest : ∀ j, j < rest.length → env.statusResp i (k + 1 + j) ≠ .exn := by
      intro j hj
      have := h (j + 1) (by simpa using Nat.succ_lt_succ hj)
      simpa [Nat.add_assoc, Nat.add_comm 1 j] using this
    simp [E2eTests.fetch_all, E2eTest.get_status_eq_ok h0, ih (k + 1) hrest,
      E2eTests.fetch_pure, fetchTrace]

theorem E2eTests.fetch_pure_length (env : Env) (i : Nat) :
    ∀ (tests : List E2eTest) (k : Nat),
      (E2eTests.fetch_pure env i tests k).length = tests.length := by
  intro tests
  induction tests with
  | nil => intro k; rfl
  | cons t rest ih => intro k; simp [E2eTests.fetch_pure, ih]

theorem E2eTests.fetch_pure_status_const (env : Env) (i : Nat) (c : String) :
    ∀ (tests : List E2eTest) (k : Nat),
      (∀ j, j < tests.length → env.statusResp i (k + j) = .resp 200 (.withStatus c)) →
      ∀ t ∈ E2eTests.fetch_pure env i tests k, t.status = .withStatus c := by
  intro tests
  induction tests with
  | nil => intro k _ t ht; simp [E2eTests.fetch_pure] at ht
  | cons t rest ih =>
    intro k h t' ht'
    have h0 : env.statusResp i k = .resp 200 (.withStatus c) := by simpa using h 0 (by simp)
    simp only [E2eTests.fetch_pure, List.mem_cons] at ht'
    rcases ht' with rfl | ht'
    · simp [E2eTest.get_status_ok, h0]
    · refine ih (k + 1) ?_ t' ht'
      intro j hj
      have := h (j + 1) (by simpa using Nat.succ_lt_succ hj)
      simpa [Nat.add_assoc, Nat.add_comm 1 j] using this

theorem E2eTests.fetch_pure_ne_empty_of_inv (env : Env) (i : Nat) :
    ∀ (tests : List E2eTest) (k : Nat),
      (∀ j body, env.statusResp i (k + j) = .resp 200 body → body ≠ .empty) →
      (∀ t ∈ tests, t.status ≠ .empty) →
      ∀ t ∈ E2eTests.fetch_pure env i tests k, t.status ≠ .empty := by
  intro tests
  induction tests with
  | nil => intro k _ _ t ht; simp [E2eTests.fetch_pure] at ht
  | cons t rest ih =>
    intro k hwf hne t' ht'
    simp only [E2eTests.fetch_pure, List.mem_cons] at ht'
    rcases ht' with rfl | ht'
    · exact E2eTest.get_status_ok_ne_empty
        (fun body hb => hwf 0 body (by simpa using hb))
        (Or.inl (hne t (by simp)))
    · refine ih (k + 1) ?_ (fun u hu => hne u (by simp [hu])) t' ht'
      intro j body hb
      refine hwf (j + 1) body ?_
      simpa [Nat.add_assoc, Nat.add_comm 1 j] using hb

theorem E2eTests.fetch_pure_ne_empty_of_fresh (env : Env) (i : Nat) :
    ∀ (tests : List E2eTest) (k : Nat),
      (∀ j, j < tests.length → ∃ s, env.statusResp i (k + j) = .resp 200 (.withStatus s)) →
      ∀ t ∈ E2eTests.fetch_pure env i tests k, t.status ≠ .empty := by
  intro tests
  induction tests with
  | nil => intro k _ t ht; simp [E2eTests.fetch_pure] at ht
  | cons t rest ih =>
    intro k h t' ht'
    simp only [E2eTests.fetch_pure, List.mem_cons] at ht'
    rcases ht' with rfl | ht'
    · rcases h 0 (by simp) with ⟨s, hs⟩
      rw [show k + 0 = k from rfl] at hs
      simp [E2eTest.get_status_ok, hs]
    · refine ih (k + 1) ?_ t' ht'
      intro j hj
      rcases h (j + 1) (by simpa using Nat.succ_lt_succ hj) with ⟨s, hs⟩
      exact ⟨s, by simpa [Nat.add_assoc, Nat.add_comm 1 j] using hs⟩

theorem fetchTrace_mem (i : Nat) :
    ∀ (n k : Nat) (e : Event), e ∈ fetchTrace i k n → e.isStatusFetch = true := by
  intro n
  induction n with
  | zero => intro k e he; simp [fetchTrace] at he
  | succ m ih =>
    intro k e he
    simp only [fetchTrace, List.mem_cons] at he
    rcases he with rfl | he
    · rfl
    · exact ih (k + 1) e he

/-! ### Status-string comparisons used by the evaluation loop -/

theorem succ_beq_succ : (SUCCESS_STATUS == SUCCESS_STATUS) = true := by decide

theorem succ_beq_fail : (SUCCESS_STATUS == FAILED_STATUS) = false := by decide

theorem run_beq_succ : (RUNNING_STATUS == SUCCESS_STATUS) = false := by decide

theorem run_beq_fail : (RUNNING_STATUS == FAILED_STATUS) = false := by decide

theorem fail_beq_fail : (FAILED_STATUS == FAILED_STATUS) = true := by decide

theorem fail_beq_succ : (FAILED_STATUS == SUCCESS_STATUS) = false := by decide

/-! ### Lemmas about `print_status` and the evaluation loop -/

theorem E2eTests.print_status_ok :
    ∀ (tests : List E2eTest) (clk : Nat),
      (∀ t ∈ tests, t.status ≠ .empty) →
      E2eTests.print_status tests clk = .ok (clk + tests.length) := by
  intro tests
  induction tests with
  | nil => intro clk _; rfl
  | cons t rest ih =>
    intro clk h
    rcases StatusPayload.lookupStatus_of_ne_empty (h t (by simp)) with ⟨s, hs⟩
    have := ih (clk + 1) (fun u hu => h u (by simp [hu]))
    simp [E2eTests.print_status, hs, this, Nat.add_assoc, Nat.add_comm 1 rest.length]

theorem E2eTests.eval_tests_cons_ok (all : List E2eTest) (clk : Nat) (t : E2eTest)
    (rest : List E2eTest) (ap : Bool) (s : String)
    (hs : t.status.lookupStatus = .ok s) :
    E2eTests.eval_tests all clk (t :: rest) ap =
      if (s == FAILED_STATUS) = true then
        match E2eTests.print_status all clk with
        | .error e => .error e
        | .ok clk' => .ok (ap && (s == SUCCESS_STATUS), true, clk')
      else E2eTests.eval_tests all clk rest (ap && (s == SUCCESS_STATUS)) := by
  simp [E2eTests.eval_tests, hs]

theorem E2eTests.eval_tests_cons_err (all : List E2eTest) (clk : Nat) (t : E2eTest)
    (rest : List E2eTest) (ap : Bool) (e : RunError)
    (hs : t.status.lookupStatus = .error e) :
    E2eTests.eval_tests all clk (t :: rest) ap = .error e := by
  simp [E2eTests.eval_tests, hs]

theorem E2eTests.eval_tests_all_success (all : List E2eTest) (clk : Nat) :
    ∀ (tests : List E2eTest) (ap : Bool),
      (∀ t ∈ tests, t.status = .withStatus SUCCESS_STATUS) →
      E2eTests.eval_tests all clk tests ap = .ok (ap, false, clk) := by
  intro tests
  induction tests with
  | nil => intro ap _; rfl
  | cons t rest ih =>
    intro ap h
    have ht : t.status.lookupStatus = .ok SUCCESS_STATUS := by
      rw [StatusPayload.lookupStatus_ok_iff]; exact h t (by simp)
    have hrest := ih ap (fun u hu => h u (by simp [hu]))
    rw [E2eTests.eval_tests_cons_ok all clk t rest ap SUCCESS_STATUS ht]
    simp only [succ_beq_fail, Bool.false_eq_true, if_false, succ_beq_succ, Bool.and_true, hrest]

theorem E2eTests.eval_tests_false_mono (all : List E2eTest) (clk : Nat) :
    ∀ (tests : List E2eTest) (b ba : Bool) (clk' : Nat),
      E2eTests.eval_tests all clk tests false = .ok (b, ba, clk') → b = false := by
  intro tests
  induction tests with
  | nil =>
    intro b ba clk' h
    simp only [E2eTests.eval_tests, Except.ok.injEq, Prod.mk.injEq] at h
    exact h.1.symm
  | cons t rest ih =>
    intro b ba clk' h
    cases hs : t.status.lookupStatus with
    | error e =>
      rw [E2eTests.eval_tests_cons_err all clk t rest false e hs] at h
      exact absurd h (by simp)
    | ok s =>
      rw [E2eTests.eval_tests_cons_ok all clk t rest false s hs] at h
      simp only [Bool.false_and] at h
      by_cases hf : (s == FAILED_STATUS) = true
      · rw [if_pos hf] at h
        cases hp : E2eTests.print_status all clk with
        | error e => rw [hp] at h; exact absurd h (by simp)
        | ok clk2 =>
          rw [hp] at h
          simp only [Except.ok.injEq, Prod.mk.injEq] at h
          exact h.1.symm
      · rw [if_neg hf] at h
        exact ih b ba clk' h

theorem E2eTests.eval_tests_true_elim (all : List E2eTest) (clk : Nat) :
    ∀ (tests : List E2eTest) (ap ba : Bool) (clk' : Nat),
      E2eTests.eval_tests all clk tests ap = .ok (true, ba, clk') →
      ∀ t ∈ tests, t.status = .withStatus SUCCESS_STATUS := by
  intro tests
  induction tests with
  | nil => intro ap ba clk' _ t ht; simp at ht
  | cons t rest ih =>
    intro ap ba clk' h t' ht'
    cases hs : t.status.lookupStatus with
    | error e =>
      rw [E2eTests.eval_tests_cons_err all clk t rest ap e hs] at h
      exact absurd h (by simp)
    | ok s =>
      rw [E2eTests.eval_tests_cons_ok all clk t rest ap s hs] at h
      by_cases hf : (s == FAILED_STATUS) = true
      · rw [if_pos hf] at h
        have hsf : s = FAILED_STATUS := by
          have := eq_of_beq hf; exact this
        cases hp : E2eTests.print_status all clk with
        | error e => rw [hp] at h; exact absurd h (by simp)
        | ok clk2 =>
          rw [hp] at h
          simp only [Except.ok.injEq, Prod.mk.injEq] at h
          have : (ap && (s == SUCCESS_STATUS)) = true := h.1
          rw [hsf, fail_beq_succ, Bool.and_false] at this
          exact absurd this (by simp)
      · rw [if_neg hf] at h
        have hap : (ap && (s == SUCCESS_STATUS)) = true := by
          by_contra hap'
          have hfalse : (ap && (s == SUCCESS_STATUS)) = false :=
            Bool.eq_false_iff.mpr hap'
          rw [hfalse] at h
          have := E2eTests.eval_tests_false_mono all clk rest _ _ _ h
          exact absurd this (by simp)
        rw [hap] at h
        rcases List.mem_cons.mp ht' with rfl | hmem
        · have hss : (s == SUCCESS_STATUS) = true := by
            simp only [Bool.and_eq_true] at hap; exact hap.2
          have : s = SUCCESS_STATUS := eq_of_beq hss
          rw [StatusPayload.lookupStatus_ok_iff] at hs
          rw [hs, this]
        · exact ih true ba clk' h t' hmem

theorem E2eTests.eval_tests_ok_of_ne_empty (all : List E2eTest) (clk : Nat)
    (hall : ∀ t ∈ all, t.status ≠ .empty) :
    ∀ (tests : List E2eTest) (ap : Bool),
      (∀ t ∈ tests, t.status ≠ .empty) →
      ∃ r, E2eTests.eval_tests all clk tests ap = .ok r := by
  intro tests
  induction tests with
  | nil => intro ap _; exact ⟨(ap, false, clk), rfl⟩
  | cons t rest ih =>
    intro ap h
    rcases StatusPayload.lookupStatus_of_ne_empty (h t (by simp)) with ⟨s, hs⟩
    by_cases hf : (s == FAILED_STATUS) = true
    · refine ⟨(ap && (s == SUCCESS_STATUS), true, clk + all.length), ?_⟩
      simp [E2eTests.eval_tests, hs, hf, E2eTests.print_status_ok all clk hall]
    · rcases ih (ap && (s == SUCCESS_STATUS)) (fun u hu => h u (by simp [hu])) with ⟨r, hr⟩
      exact ⟨r, by simp [E2eTests.eval_tests, hs, hf, hr]⟩

theorem E2eTests.eval_tests_running_nonempty (all : List E2eTest) (clk : Nat) :
    ∀ (tests : List E2eTest) (ap : Bool),
      (∀ t ∈ tests, t.status = .withStatus RUNNING_STATUS) →
      tests ≠ [] →
      E2eTests.eval_tests all clk tests ap = .ok (false, false, clk) := by
  have aux : ∀ (tests : List E2eTest),
      (∀ t ∈ tests, t.status = .withStatus RUNNING_STATUS) →
      E2eTests.eval_tests all clk tests false = .ok (false, false, clk) := by
    intro tests
    induction tests with
    | nil => intro _; rfl
    | cons t rest ih =>
      intro h
      have ht : t.status.lookupStatus = .ok RUNNING_STATUS := by
        rw [StatusPayload.lookupStatus_ok_iff]; exact h t (by simp)
      have := ih (fun u hu => h u (by simp [hu]))
      simp only [E2eTests.eval_tests, ht, run_beq_fail, Bool.false_eq_true, if_false,
        Bool.false_and, this]
  intro tests ap h hne
  cases tests with
  | nil => exact absurd rfl hne
  | cons t rest =>
    have ht : t.status.lookupStatus = .ok RUNNING_STATUS := by
      rw [StatusPayload.lookupStatus_ok_iff]; exact h t (by simp)
    have := aux rest (fun u hu => h u (by simp [hu]))
    simp only [E2eTests.eval_tests, ht, run_beq_fail, Bool.false_eq_true, if_false,
      run_beq_succ, Bool.and_false, this]

theorem E2eTests.eval_tests_detects_failure (all : List E2eTest) (clk : Nat)
    (hall : ∀ t ∈ all, t.status ≠ .empty) :
    ∀ (tests : List E2eTest) (ap : Bool),
      (∀ t ∈ tests, t.status ≠ .empty) →
      (∃ t ∈ tests, t.status = .withStatus FAILED_STATUS) →
      ∃ ap', E2eTests.eval_tests all clk tests ap = .ok (ap', true, clk + all.length) := by
  intro tests
  induction tests with
  | nil => intro ap _ hex; simp at hex
  | cons t rest ih =>
    intro ap h hex
    rcases StatusPayload.lookupStatus_of_ne_empty (h t (by simp)) with ⟨s, hs⟩
    by_cases hf : (s == FAILED_STATUS) = true
    · refine ⟨ap && (s == SUCCESS_STATUS), ?_⟩
      simp [E2eTests.eval_tests, hs, hf, E2eTests.print_status_ok all clk hall]
    · have hex' : ∃ u ∈ rest, u.status = .withStatus FAILED_STATUS := by
        rcases hex with ⟨u, hu, hustat⟩
        rcases List.mem_cons.mp hu with rfl | hmem
        · exfalso
          rw [StatusPayload.lookupStatus_ok_iff] at hs
          rw [hustat] at hs
          injection hs with hss
          rw [← hss] at hf
          exact hf fail_beq_fail
        · exact ⟨u, hmem, hustat⟩
      rcases ih (ap && (s == SUCCESS_STATUS)) (fun u hu => h u (by simp [hu])) hex' with ⟨ap', hap'⟩
      exact ⟨ap', by simp [E2eTests.eval_tests, hs, hf, hap']⟩

/-! ### Monotonicity of the clock index through the phases -/

theorem E2eTests.print_status_mono :
    ∀ (tests : List E2eTest) (clk clk' : Nat),
      E2eTests.print_status tests clk = .ok clk' → clk ≤ clk' := by
  intro tests
  induction tests with
  | nil =>
    intro clk clk' h
    simp only [E2eTests.print_status, Except.ok.injEq] at h
    omega
  | cons t rest ih =>
    intro clk clk' h
    cases hs : t.status.lookupStatus with
    | error e => simp [E2eTests.print_status, hs] at h
    | ok s =>
      simp only [E2eTests.print_status, hs] at h
      have := ih (clk + 1) clk' h
      omega

theorem E2eTests.eval_tests_clk_mono (all : List E2eTest) (clk : Nat) :
    ∀ (tests : List E2eTest) (ap ap' ba : Bool) (clk' : Nat),
      E2eTests.eval_tests all clk tests ap = .ok (ap', ba, clk') → clk ≤ clk' := by
  intro tests
  induction tests with
  | nil =>
    intro ap ap' ba clk' h
    simp only [E2eTests.eval_tests, Except.ok.injEq, Prod.mk.injEq] at h
    omega
  | cons t rest ih =>
    intro ap ap' ba clk' h
    cases hs : t.status.lookupStatus with
    | error e =>
      rw [E2eTests.eval_tests_cons_err all clk t rest ap e hs] at h
      exact absurd h (by simp)
    | ok s =>
      rw [E2eTests.eval_tests_cons_ok all clk t rest ap s hs] at h
      by_cases hf : (s == FAILED_STATUS) = true
      · rw [if_pos hf] at h
        cases hp : E2eTests.print_status all clk with
        | error e => rw [hp] at h; exact absurd h (by simp)
        | ok clk2 =>
          rw [hp] at h
          simp only [Except.ok.injEq, Prod.mk.injEq] at h
          have := E2eTests.print_status_mono all clk clk2 hp
          omega
      · rw [if_neg hf] at h
        exact ih _ ap' ba clk' h

/-! ### Elementwise characterisation of a completed fetch phase -/

theorem E2eTests.fetch_all_ok_elem (env : Env) (i : Nat) :
    ∀ (tests : List E2eTest) (k : Nat) (evs : List Event) (tests' : List E2eTest),
      E2eTests.fetch_all env i tests k = (evs, .ok tests') →
      tests'.length = tests.length ∧
        ∀ j (hj : j < tests.length) (hj' : j < tests'.length),
          (tests.get ⟨j, hj⟩).get_status (env.statusResp i (k + j)) =
            .ok (tests'.get ⟨j, hj'⟩) := by
  intro tests
  induction tests with
  | nil =>
    intro k evs tests' h
    simp only [E2eTests.fetch_all, Prod.mk.injEq, Except.ok.injEq] at h
    refine ⟨by rw [← h.2], ?_⟩
    intro j hj
    simp at hj
  | cons t rest ih =>
    intro k evs tests' h
    cases hg : t.get_status (env.statusResp i k) with
    | error e =>
      simp only [E2eTests.fetch_all, hg, Prod.mk.injEq] at h
      exact absurd h.2 (by simp)
    | ok t' =>
      rcases hr : E2eTests.fetch_all env i rest (k + 1) with ⟨evs2, r2⟩
      cases r2 with
      | error e =>
        simp only [E2eTests.fetch_all, hg, hr, Prod.mk.injEq] at h
        exact absurd h.2 (by simp)
      | ok rest' =>
        simp only [E2eTests.fetch_all, hg, hr, Prod.mk.injEq, Except.ok.injEq] at h
        rcases ih (k + 1) evs2 rest' hr with ⟨hlen, helem⟩
        obtain ⟨h1, h2⟩ := h
        subst h2
        refine ⟨by simp [hlen], ?_⟩
        intro j hj hj'
        cases j with
        | zero => simpa using hg
        | succ m =>
          have hm : m < rest.length := by simpa using hj
          have hm' : m < rest'.length := by simpa using hj'
          have := helem m hm hm'
          simpa [Nat.add_assoc, Nat.add_comm 1 m] using this

theorem E2eTests.fetch_all_trace (env : Env) (i : Nat) :
    ∀ (tests : List E2eTest) (k : Nat) (e : Event),
      e ∈ (E2eTests.fetch_all env i tests k).1 → e.isStatusFetch = true := by
  intro tests
  induction tests with
  | nil => intro k e he; simp [E2eTests.fetch_all] at he
  | cons t rest ih =>
    intro k e he
    cases hg : t.get_status (env.statusResp i k) with
    | error er =>
      simp only [E2eTests.fetch_all, hg, List.mem_singleton] at he
      subst he; rfl
    | ok t' =>
      rcases hr : E2eTests.fetch_all env i rest (k + 1) with ⟨evs2, r2⟩
      cases r2 with
      | error er =>
        simp only [E2eTests.fetch_all, hg, hr, List.mem_cons] at he
        rcases he with rfl | he
        · rfl
        · exact ih (k + 1) e (by rw [hr]; exact he)
      | ok rest' =>
        simp only [E2eTests.fetch_all, hg, hr, List.mem_cons] at he
        rcases he with rfl | he
        · rfl
        · exact ih (k + 1) e (by rw [hr]; exact he)

theorem Event.isStatusFetch_classes {e : Event} (h : e.isStatusFetch = true) :
    e.isNotify = false ∧ e.isStartCall = false ∧ e.isIterStart = false ∧
      e.isPollSleep = false := by
  cases e <;> simp_all [Event.isStatusFetch, Event.isNotify, Event.isStartCall,
    Event.isIterStart, Event.isPollSleep]

/-! ### Unfoldings of one pass of the `while` loop -/

theorem E2eTests.while_loop_zero (env : Env) (i : Nat) (st : E2eTests) :
    E2eTests.while_loop env 0 i st = ([], .ok (st, i)) := rfl

theorem E2eTests.while_loop_fetch_err (env : Env) (fuel i : Nat) (st : E2eTests)
    (fevs : List Event) (e : RunError)
    (hF : E2eTests.fetch_all env i st.all_tests 0 = (fevs, .error e)) :
    E2eTests.while_loop env (fuel + 1) i st = (Event.iterStart (i + 1) :: fevs, .error e) := by
  simp [E2eTests.while_loop, hF]

theorem E2eTests.while_loop_eval_err (env : Env) (fuel i : Nat) (st : E2eTests)
    (fevs : List Event) (tests1 : List E2eTest) (e : RunError)
    (hF : E2eTests.fetch_all env i st.all_tests 0 = (fevs, .ok tests1))
    (hE : E2eTests.eval_tests tests1 st.clockIdx tests1 true = .error e) :
    E2eTests.while_loop env (fuel + 1) i st = (Event.iterStart (i + 1) :: fevs, .error e) := by
  simp [E2eTests.while_loop, hF, hE]

theorem E2eTests.while_loop_fail_break (env : Env) (fuel i : Nat) (st : E2eTests)
    (fevs : List Event) (tests1 : List E2eTest) (ap : Bool) (clk1 : Nat)
    (hF : E2eTests.fetch_all env i st.all_tests 0 = (fevs, .ok tests1))
    (hE : E2eTests.eval_tests tests1 st.clockIdx tests1 true = .ok (ap, true, clk1)) :
    E2eTests.while_loop env (fuel + 1) i st =
      (Event.iterStart (i + 1) :: fevs ++ [Event.failureLog],
        .ok ({ st with all_tests := tests1, clockIdx := clk1 }, i)) := by
  simp [E2eTests.while_loop, hF, hE]

theorem E2eTests.while_loop_print_err (env : Env) (fuel i : Nat) (st : E2eTests)
    (fevs : List Event) (tests1 : List E2eTest) (ap : Bool) (clk1 : Nat) (e : RunError)
    (hF : E2eTests.fetch_all env i st.all_tests 0 = (fevs, .ok tests1))
    (hE : E2eTests.eval_tests tests1 st.clockIdx tests1 true = .ok (ap, false, clk1))
    (hP : E2eTests.print_status tests1 clk1 = .error e) :
    E2eTests.while_loop env (fuel + 1) i st = (Event.iterStart (i + 1) :: fevs, .error e) := by
  simp [E2eTests.while_loop, hF, hE, hP]

theorem E2eTests.while_loop_succ_break (env : Env) (fuel i : Nat) (st : E2eTests)
    (fevs : List Event) (tests1 : List E2eTest) (clk1 clk2 : Nat)
    (hF : E2eTests.fetch_all env i st.all_tests 0 = (fevs, .ok tests1))
    (hE : E2eTests.eval_tests tests1 st.clockIdx tests1 true = .ok (true, false, clk1))
    (hP : E2eTests.print_status tests1 clk1 = .ok clk2) :
    E2eTests.while_loop env (fuel + 1) i st =
      (Event.iterStart (i + 1) :: fevs,
        .ok ({ st with all_tests := tests1, did_succeed := true, clockIdx := clk2 }, i)) := by
  simp [E2eTests.while_loop, hF, hE, hP]

theorem E2eTests.while_loop_continue (env : Env) (fuel i : Nat) (st : E2eTests)
    (fevs evs' : List Event) (tests1 : List E2eTest) (clk1 clk2 : Nat)
    (r : Except RunError (E2eTests × Nat))
    (hF : E2eTests.fetch_all env i st.all_tests 0 = (fevs, .ok tests1))
    (hE : E2eTests.eval_tests tests1 st.clockIdx tests1 true = .ok (false, false, clk1))
    (hP : E2eTests.print_status tests1 clk1 = .ok clk2)
    (hW : E2eTests.while_loop env fuel (i + 1)
        { st with all_tests := tests1, clockIdx := clk2 } = (evs', r)) :
    E2eTests.while_loop env (fuel + 1) i st =
      (Event.iterStart (i + 1) :: fevs ++ Event.sleepEv SLEEP_TIME :: evs', r) := by
  simp [E2eTests.while_loop, hF, hE, hP, hW]

/-! ### Invariants of the `while` loop -/

theorem E2eTests.while_loop_ok_inv (env : Env) :
    ∀ (fuel i : Nat) (st : E2eTests) (evs : List Event) (st' : E2eTests) (i' : Nat),
      E2eTests.while_loop env fuel i st = (evs, .ok (st', i')) →
      st'.start_time = st.start_time ∧ st.clockIdx ≤ st'.clockIdx ∧
        st'.all_tests.length = st.all_tests.length ∧ i ≤ i' ∧ i' ≤ i + fuel := by
  intro fuel
  induction fuel with
  | zero =>
    intro i st evs st' i' h
    rw [E2eTests.while_loop_zero] at h
    simp only [Prod.mk.injEq, Except.ok.injEq] at h
    obtain ⟨-, h2, h3⟩ := h
    subst h2; subst h3
    exact ⟨rfl, le_refl _, rfl, le_refl _, by omega⟩
  | succ fuel ih =>
    intro i st evs st' i' h
    rcases hF : E2eTests.fetch_all env i st.all_tests 0 with ⟨fevs, fr⟩
    cases fr with
    | error e =>
      rw [E2eTests.while_loop_fetch_err env fuel i st fevs e hF] at h
      simp at h
    | ok tests1 =>
      have hlen := (E2eTests.fetch_all_ok_elem env i st.all_tests 0 fevs tests1 hF).1
      cases hE : E2eTests.eval_tests tests1 st.clockIdx tests1 true with
      | error e =>
        rw [E2eTests.while_loop_eval_err env fuel i st fevs tests1 e hF hE] at h
        simp at h
      | ok r =>
        rcases r with ⟨ap, ba, clk1⟩
        have hclk1 := E2eTests.eval_tests_clk_mono tests1 st.clockIdx tests1 true ap ba clk1 hE
        cases ba with
        | true =>
          rw [E2eTests.while_loop_fail_break env fuel i st fevs tests1 ap clk1 hF hE] at h
          simp only [Prod.mk.injEq, Except.ok.injEq] at h
          obtain ⟨-, h2, h3⟩ := h
          subst h3
          rw [← h2]
          exact ⟨rfl, hclk1, hlen, le_refl _, by omega⟩
        | false =>
          cases hP : E2eTests.print_status tests1 clk1 with
          | error e =>
            rw [E2eTests.while_loop_print_err env fuel i st fevs tests1 ap clk1 e hF hE hP] at h
            simp at h
          | ok clk2 =>
            have hclk2 := E2eTests.print_status_mono tests1 clk1 clk2 hP
            cases ap with
            | true =>
              rw [E2eTests.while_loop_succ_break env fuel i st fevs tests1 clk1 clk2 hF hE hP] at h
              simp only [Prod.mk.injEq, Except.ok.injEq] at h
              obtain ⟨-, h2, h3⟩ := h
              subst h3
              rw [← h2]
              refine ⟨rfl, ?_, hlen, le_refl _, by omega⟩
              show st.clockIdx ≤ clk2
              omega
            | false =>
              rcases hW : E2eTests.while_loop env fuel (i + 1)
                  { st with all_tests := tests1, clockIdx := clk2 } with ⟨evs', r⟩
              rw [E2eTests.while_loop_continue env fuel i st fevs evs' tests1 clk1 clk2 r
                hF hE hP hW] at h
              simp only [Prod.mk.injEq] at h
              obtain ⟨-, h2⟩ := h
              subst h2
              rcases ih (i + 1) { st with all_tests := tests1, clockIdx := clk2 } evs' st' i'
                  hW with ⟨g1, g2, g3, g4, g5⟩
              refine ⟨g1, ?_, ?_, ?_, ?_⟩
              · simp only at g2; omega
              · simp only at g3; omega
              · omega
              · omega

theorem E2eTests.while_loop_trace (env : Env) :
    ∀ (fuel i : Nat) (st : E2eTests) (e : Event),
      e ∈ (E2eTests.while_loop env fuel i st).1 →
      e.isNotify = false ∧ e.isStartCall = false := by
  intro fuel
  induction fuel with
  | zero => intro i st e he; simp [E2eTests.while_loop_zero] at he
  | succ fuel ih =>
    intro i st e he
    rcases hF : E2eTests.fetch_all env i st.all_tests 0 with ⟨fevs, fr⟩
    have hfevs : ∀ ev ∈ fevs, Event.isNotify ev = false ∧ Event.isStartCall ev = false := by
      intro ev hev
      have := E2eTests.fetch_all_trace env i st.all_tests 0 ev (by rw [hF]; exact hev)
      rcases Event.isStatusFetch_classes this with ⟨a, b, -, -⟩
      exact ⟨a, b⟩
    cases fr with
    | error er =>
      rw [E2eTests.while_loop_fetch_err env fuel i st fevs er hF] at he
      rcases List.mem_cons.mp he with rfl | he
      · exact ⟨rfl, rfl⟩
      · exact hfevs e he
    | ok tests1 =>
      cases hE : E2eTests.eval_tests tests1 st.clockIdx tests1 true with
      | error er =>
        rw [E2eTests.while_loop_eval_err env fuel i st fevs tests1 er hF hE] at he
        rcases List.mem_cons.mp he with rfl | he
        · exact ⟨rfl, rfl⟩
        · exact hfevs e he
      | ok r =>
        rcases r with ⟨ap, ba, clk1⟩
        cases ba with
        | true =>
          rw [E2eTests.while_loop_fail_break env fuel i st fevs tests1 ap clk1 hF hE] at he
          simp only [List.cons_append, List.mem_cons, List.mem_append,
            List.mem_singleton, List.not_mem_nil, or_false] at he
          rcases he with rfl | he | rfl
          · exact ⟨rfl, rfl⟩
          · exact hfevs e he
          · exact ⟨rfl, rfl⟩
        | false =>
          cases hP : E2eTests.print_status tests1 clk1 with
          | error er =>
            rw [E2eTests.while_loop_print_err env fuel i st fevs tests1 ap clk1 er hF hE hP] at he
            rcases List.mem_cons.mp he with rfl | he
            · exact ⟨rfl, rfl⟩
            · exact hfevs e he
          | ok clk2 =>
            cases ap with
            | true =>
              rw [E2eTests.while_loop_succ_break env fuel i st fevs tests1 clk1 clk2 hF hE hP] at he
              rcases List.mem_cons.mp he with rfl | he
              · exact ⟨rfl, rfl⟩
              · exact hfevs e he
            | false =>
              rcases hW : E2eTests.while_loop env fuel (i + 1)
                  { st with all_tests := tests1, clockIdx := clk2 } with ⟨evs', r⟩
              rw [E2eTests.while_loop_continue env fuel i st fevs evs' tests1 clk1 clk2 r
                hF hE hP hW] at he
              simp only [List.cons_append, List.mem_cons, List.mem_append] at he
              rcases he with rfl | he | rfl | he
              · exact ⟨rfl, rfl⟩
              · exact hfevs e he
              · exact ⟨rfl, rfl⟩
              · exact ih (i + 1) _ e (by rw [hW]; exact he)

theorem E2eTests.while_loop_success_elim (env : Env) :
    ∀ (fuel i : Nat) (st : E2eTests) (evs : List Event) (st' : E2eTests) (i' : Nat),
      st.did_succeed = false →
      E2eTests.while_loop env fuel i st = (evs, .ok (st', i')) →
      st'.did_succeed = true →
      ∀ t ∈ st'.all_tests, t.status = .withStatus SUCCESS_STATUS := by
  intro fuel
  induction fuel with
  | zero =>
    intro i st evs st' i' hds h hds'
    rw [E2eTests.while_loop_zero] at h
    simp only [Prod.mk.injEq, Except.ok.injEq] at h
    rw [← h.2.1] at hds'
    rw [hds] at hds'
    exact absurd hds' (by simp)
  | succ fuel ih =>
    intro i st evs st' i' hds h hds'
    rcases hF : E2eTests.fetch_all env i st.all_tests 0 with ⟨fevs, fr⟩
    cases fr with
    | error e =>
      rw [E2eTests.while_loop_fetch_err env fuel i st fevs e hF] at h
      simp at h
    | ok tests1 =>
      cases hE : E2eTests.eval_tests tests1 st.clockIdx tests1 true with
      | error e =>
        rw [E2eTests.while_loop_eval_err env fuel i st fevs tests1 e hF hE] at h
        simp at h
      | ok r =>
        rcases r with ⟨ap, ba, clk1⟩
        cases ba with
        | true =>
          rw [E2eTests.while_loop_fail_break env fuel i st fevs tests1 ap clk1 hF hE] at h
          simp only [Prod.mk.injEq, Except.ok.injEq] at h
          rw [← h.2.1] at hds'
          rw [hds] at hds'
          exact absurd hds' (by simp)
        | false =>
          cases hP : E2eTests.print_status tests1 clk1 with
          | error e =>
            rw [E2eTests.while_loop_print_err env fuel i st fevs tests1 ap clk1 e hF hE hP] at h
            simp at h
          | ok clk2 =>
            cases ap with
            | true =>
              rw [E2eTests.while_loop_succ_break env fuel i st fevs tests1 clk1 clk2 hF hE hP] at h
              simp only [Prod.mk.injEq, Except.ok.injEq] at h
              rw [← h.2.1]
              exact E2eTests.eval_tests_true_elim tests1 st.clockIdx tests1 true false clk1 hE
            | false =>
              rcases hW : E2eTests.while_loop env fuel (i + 1)
                  { st with all_tests := tests1, clockIdx := clk2 } with ⟨evs', r⟩
              rw [E2eTests.while_loop_continue env fuel i st fevs evs' tests1 clk1 clk2 r
                hF hE hP hW] at h
              simp only [Prod.mk.injEq] at h
              obtain ⟨-, h2⟩ := h
              subst h2
              exact ih (i + 1) { st with all_tests := tests1, clockIdx := clk2 }
                evs' st' i' hds hW hds'

/-! ### Lemmas about the start phase -/

theorem startTrace_classes :
    ∀ (names : List String) (e : Event), e ∈ startTrace names →
      e.isNotify = false ∧ e.isIterStart = false ∧ e.isStatusFetch = false ∧
        e.isPollSleep = false := by
  intro names
  induction names with
  | nil => intro e he; simp [startTrace] at he
  | cons n rest ih =>
    intro e he
    simp only [startTrace, List.mem_cons] at he
    rcases he with rfl | rfl | he
    · exact ⟨rfl, rfl, rfl, rfl⟩
    · refine ⟨rfl, rfl, rfl, ?_⟩
      simp [Event.isPollSleep, SLEEP_TIME]
    · exact ih e he

theorem startTrace_startCallCount :
    ∀ names : List String, startCallCount (startTrace names) = names.length := by
  intro names
  induction names with
  | nil => rfl
  | cons n rest ih =>
    simp only [startTrace, startCallCount, List.countP_cons] at *
    simp [Event.isStartCall, ih, Event.isPollSleep]

theorem E2eTests.start_all_ok_inv (env : Env) :
    ∀ (names : List String) (p : Nat) (st : E2eTests) (evs : List Event)
      (st' : E2eTests) (flag : Bool),
      E2eTests.start_all env p names st = (evs, .ok (st', flag)) →
      st'.did_succeed = st.did_succeed ∧ st'.start_time = st.start_time ∧
        st'.clockIdx = st.clockIdx := by
  intro names
  induction names with
  | nil =>
    intro p st evs st' flag h
    simp only [E2eTests.start_all, Prod.mk.injEq, Except.ok.injEq] at h
    rw [← h.2.1]
    exact ⟨rfl, rfl, rfl⟩
  | cons name rest ih =>
    intro p st evs st' flag h
    cases hr : E2eTest.runScenario E2eTest.new name (env.startResp p) with
    | error e =>
      simp only [E2eTests.start_all, hr, Prod.mk.injEq] at h
      exact absurd h.2 (by simp)
    | ok tb =>
      rcases tb with ⟨t, b⟩
      cases b with
      | true =>
        rcases hrec : E2eTests.start_all env (p + 1) rest
            { st with all_tests := st.all_tests ++ [t] } with ⟨evs2, r2⟩
        simp only [E2eTests.start_all, hr, hrec, Prod.mk.injEq] at h
        obtain ⟨-, h2⟩ := h
        rw [h2] at hrec
        exact ih (p + 1) { st with all_tests := st.all_tests ++ [t] } evs2 st' flag hrec
      | false =>
        simp only [E2eTests.start_all, hr, Prod.mk.injEq, Except.ok.injEq] at h
        rw [← h.2.1]
        exact ⟨rfl, rfl, rfl⟩

theorem E2eTests.start_all_trace (env : Env) :
    ∀ (names : List String) (p : Nat) (st : E2eTests) (e : Event),
      e ∈ (E2eTests.start_all env p names st).1 →
      e.isNotify = false ∧ e.isIterStart = false ∧ e.isStatusFetch = false ∧
        e.isPollSleep = false := by
  intro names
  induction names with
  | nil => intro p st e he; simp [E2eTests.start_all] at he
  | cons name rest ih =>
    intro p st e he
    cases hr : E2eTest.runScenario E2eTest.new name (env.startResp p) with
    | error er =>
      simp only [E2eTests.start_all, hr, List.mem_singleton] at he
      subst he; exact ⟨rfl, rfl, rfl, rfl⟩
    | ok tb =>
      rcases tb with ⟨t, b⟩
      cases b with
      | true =>
        rcases hrec : E2eTests.start_all env (p + 1) rest
            { st with all_tests := st.all_tests ++ [t] } with ⟨evs2, r2⟩
        simp only [E2eTests.start_all, hr, hrec, List.mem_cons] at he
        rcases he with rfl | rfl | he
        · exact ⟨rfl, rfl, rfl, rfl⟩
        · refine ⟨rfl, rfl, rfl, ?_⟩
          simp [Event.isPollSleep, SLEEP_TIME]
        · exact ih (p + 1) { st with all_tests := st.all_tests ++ [t] } e
            (by rw [hrec]; exact he)
      | false =>
        simp only [E2eTests.start_all, hr, List.mem_singleton] at he
        subst he; exact ⟨rfl, rfl, rfl, rfl⟩

theorem E2eTests.start_all_all_success (env : Env) :
    ∀ (names : List String) (p : Nat) (st : E2eTests),
      (∀ j, j < names.length →
        ∃ body, env.startResp (p + j) = .resp 200 body ∧ body.success = true) →
      ∃ built : List E2eTest,
        E2eTests.start_all env p names st =
          (startTrace names, .ok ({ st with all_tests := st.all_tests ++ built }, true)) ∧
        built.length = names.length ∧
        built.map E2eTest.scenario_name = names.map some ∧
        ∀ t ∈ built, t.status = .empty ∧ t.run_id.isSome = true := by
  intro names
  induction names with
  | nil =>
    intro p st _
    exact ⟨[], by simp [E2eTests.start_all, startTrace], rfl, rfl, by simp⟩
  | cons name rest ih =>
    intro p st h
    rcases h 0 (by simp) with ⟨body, hb, hsucc⟩
    rw [Nat.add_zero] at hb
    have hr : E2eTest.runScenario E2eTest.new name (env.startResp p) =
        .ok ({ scenario_name := some name, run_id := some body.id, status := .empty }, true) := by
      simp [E2eTest.runScenario, E2eTest.runTest, E2eTest.new, hb, hsucc]
    have hrest : ∀ j, j < rest.length →
        ∃ body, env.startResp (p + 1 + j) = .resp 200 body ∧ body.success = true := by
      intro j hj
      rcases h (j + 1) (by simpa using Nat.succ_lt_succ hj) with ⟨b', hb', hs'⟩
      exact ⟨b', by simpa [Nat.add_assoc, Nat.add_comm 1 j] using hb', hs'⟩
    rcases ih (p + 1)
        { st with all_tests := st.all_tests ++
            [{ scenario_name := some name, run_id := some body.id, status := .empty }] }
        hrest with ⟨built, hbeq, hblen, hbnames, hbst⟩
    refine ⟨(⟨some name, some body.id, .empty⟩ : E2eTest) :: built,
        ?_, by simp [hblen], by simp [hbnames], ?_⟩
    · simp only [E2eTests.start_all, hr, hbeq, startTrace]
      simp [List.append_assoc]
    · intro t ht
      rcases List.mem_cons.mp ht with rfl | ht
      · exact ⟨rfl, rfl⟩
      · exact hbst t ht

theorem E2eTests.start_all_fail_at (env : Env) :
    ∀ (names : List String) (i : Nat) (p : Nat) (st : E2eTests),
      i < names.length →
      (∀ j, j < i → ∃ body, env.startResp (p + j) = .resp 200 body ∧ body.success = true) →
      startRespFails (env.startResp (p + i)) →
      ∃ evs st',
        E2eTests.start_all env p names st = (evs, .ok (st', false)) ∧
        startCallCount evs = i + 1 ∧
        (∀ e ∈ evs, e.isNotify = false ∧ e.isIterStart = false ∧ e.isStatusFetch = false ∧
          e.isPollSleep = false) ∧
        st'.all_tests.map E2eTest.scenario_name =
          st.all_tests.map E2eTest.scenario_name ++ ((names.take i).map some) ∧
        st'.did_succeed = st.did_succeed ∧ st'.start_time = st.start_time ∧
        st'.clockIdx = st.clockIdx := by
  intro names
  induction names with
  | nil => intro i p st hi; simp at hi
  | cons name rest ih =>
    intro i p st hi hprev hfail
    cases i with
    | zero =>
      rcases hfail with ⟨code, body, hresp, hbad⟩
      rw [Nat.add_zero] at hresp
      have hr : E2eTest.runScenario E2eTest.new name (env.startResp p) =
          .ok (if code = 200 then
              { scenario_name := some name, run_id := some body.id, status := .empty }
            else { scenario_name := some name, run_id := none, status := .empty }, false) := by
        rcases hbad with hc | hs
        · simp [E2eTest.runScenario, E2eTest.runTest, E2eTest.new, hresp, hc]
        · by_cases hc : code = 200 <;>
            simp [E2eTest.runScenario, E2eTest.runTest, E2eTest.new, hresp, hc, hs]
      refine ⟨[Event.startCall name], st, ?_, ?_, ?_, by simp, rfl, rfl, rfl⟩
      · simp [E2eTests.start_all, hr]
      · simp [startCallCount, Event.isStartCall]
      · intro e he
        rcases List.mem_singleton.mp he with rfl
        exact ⟨rfl, rfl, rfl, rfl⟩
    | succ m =>
      rcases hprev 0 (by omega) with ⟨body, hb, hsucc⟩
      rw [Nat.add_zero] at hb
      have hr : E2eTest.runScenario E2eTest.new name (env.startResp p) =
          .ok ({ scenario_name := some name, run_id := some body.id, status := .empty }, true) := by
        simp [E2eTest.runScenario, E2eTest.runTest, E2eTest.new, hb, hsucc]
      have hprev' : ∀ j, j < m →
          ∃ body, env.startResp (p + 1 + j) = .resp 200 body ∧ body.success = true := by
        intro j hj
        rcases hprev (j + 1) (by omega) with ⟨b', hb', hs'⟩
        exact ⟨b', by simpa [Nat.add_assoc, Nat.add_comm 1 j] using hb', hs'⟩
      have hfail' : startRespFails (env.startResp (p + 1 + m)) := by
        have : p + 1 + m = p + (m + 1) := by omega
        rw [this]
        exact hfail
      rcases ih m (p + 1)
          { st with all_tests := st.all_tests ++
              [{ scenario_name := some name, run_id := some body.id, status := .empty }] }
          (by simpa using hi) hprev' hfail' with
        ⟨evs2, st', heq, hcount, hclass, hnames, hds, hst, hck⟩
      refine ⟨Event.startCall name :: Event.sleepEv 5 :: evs2, st', ?_, ?_, ?_, ?_, hds, hst, hck⟩
      · simp [E2eTests.start_all, hr, heq]
      · have h2 : startCallCount (Event.startCall name :: Event.sleepEv 5 :: evs2) =
            startCallCount evs2 + 1 := by
          simp [startCallCount, List.countP_cons, Event.isStartCall]
        rw [h2, hcount]
      · intro e he
        rcases List.mem_cons.mp he with rfl | he
        · exact ⟨rfl, rfl, rfl, rfl⟩
        · rcases List.mem_cons.mp he with rfl | he
          · refine ⟨rfl, rfl, rfl, ?_⟩
            simp [Event.isPollSleep, SLEEP_TIME]
          · exact hclass e he
      · rw [hnames]
        simp [List.take_succ_cons]

/-! ### Unfoldings of `on_end`, `status_loop` and `run_all` -/

theorem E2eTests.on_end_eq (env : Env) (st : E2eTests) (t0 : Nat)
    (h : st.start_time = some t0) :
    E2eTests.on_end env st =
      ([Event.notify "E2E Full Run Ended" (if st.did_succeed then "Passed" else "Failed")
          (if st.did_succeed then "good" else "danger")
          ((env.clock st.clockIdx : Int) - (t0 : Int))],
        .ok { st with clockIdx := st.clockIdx + 2 }) := by
  simp [E2eTests.on_end, h]

theorem E2eTests.status_loop_eq (env : Env) (st st1 : E2eTests) (evs : List Event)
    (i : Nat) (t0 : Nat)
    (hW : E2eTests.while_loop env NUM_OF_WAIT_ITER 0 st = (evs, .ok (st1, i)))
    (h1 : st1.start_time = some t0) :
    E2eTests.status_loop env st =
      ((if i = NUM_OF_WAIT_ITER then evs ++ [Event.timeoutLog] else evs) ++
        [Event.notify "E2E Full Run Ended" (if st1.did_succeed then "Passed" else "Failed")
          (if st1.did_succeed then "good" else "danger")
          ((env.clock st1.clockIdx : Int) - (t0 : Int))],
        .ok { st1 with clockIdx := st1.clockIdx + 2 }) := by
  simp [E2eTests.status_loop, hW, E2eTests.on_end_eq env st1 t0 h1]

theorem E2eTests.status_loop_err (env : Env) (st : E2eTests) (evs : List Event)
    (e : RunError)
    (hW : E2eTests.while_loop env NUM_OF_WAIT_ITER 0 st = (evs, .error e)) :
    E2eTests.status_loop env st = (evs, .error e) := by
  simp [E2eTests.status_loop, hW]

theorem E2eTests.run_all_eq_of_start_err (env : Env) (names : List String) (st : E2eTests)
    (evs : List Event) (e : RunError)
    (hS : E2eTests.start_all env 0 names (E2eTests.afterTime env st) = (evs, .error e)) :
    E2eTests.run_all env names st = (evs, .error e) := by
  simp [E2eTests.afterTime] at hS
  simp [E2eTests.run_all, hS]

theorem E2eTests.run_all_eq_of_start_fail (env : Env) (names : List String) (st : E2eTests)
    (evs : List Event) (st2 : E2eTests)
    (hS : E2eTests.start_all env 0 names (E2eTests.afterTime env st) =
      (evs, .ok (st2, false))) :
    E2eTests.run_all env names st = (evs, .ok (st2, st2.did_succeed)) := by
  simp [E2eTests.afterTime] at hS
  simp [E2eTests.run_all, hS]

theorem E2eTests.run_all_eq_of_loop_ok (env : Env) (names : List String) (st : E2eTests)
    (evs evs2 : List Event) (st2 st3 : E2eTests)
    (hS : E2eTests.start_all env 0 names (E2eTests.afterTime env st) =
      (evs, .ok (st2, true)))
    (hL : E2eTests.status_loop env st2 = (evs2, .ok st3)) :
    E2eTests.run_all env names st = (evs ++ evs2, .ok (st3, st3.did_succeed)) := by
  simp [E2eTests.afterTime] at hS
  simp [E2eTests.run_all, hS, hL]

theorem E2eTests.run_all_eq_of_loop_err (env : Env) (names : List String) (st : E2eTests)
    (evs evs2 : List Event) (st2 : E2eTests) (e : RunError)
    (hS : E2eTests.start_all env 0 names (E2eTests.afterTime env st) =
      (evs, .ok (st2, true)))
    (hL : E2eTests.status_loop env st2 = (evs2, .error e)) :
    E2eTests.run_all env names st = (evs ++ evs2, .error e) := by
  simp [E2eTests.afterTime] at hS
  simp [E2eTests.run_all, hS, hL]

theorem countP_zero_of_all_false {p : Event → Bool} {l : List Event}
    (h : ∀ e ∈ l, p e = false) : l.countP p = 0 := by
  rw [List.countP_eq_zero]
  intro a ha
  simp [h a ha]

/-! ### Claim C2 -/

/-- C2 counterexample: on a transport error the start operation does not
return false — the exception propagates out of `_run_test` uncaught. -/
theorem c2_counterexample :
    E2eTest.runScenario E2eTest.new "run_health_checks" HttpResult.exn =
      .error RunError.transportExn := rfl

/-- C2 (amended): the start operation returns true iff the service responded
with transport status 200 and a true success indicator in the body; on a 200
response the run identifier is recorded regardless of the indicator; on a
non-200 response it returns false without recording; a transport error
propagates as an exception instead of returning false. -/
theorem c2_start_semantics (t : E2eTest) (name : String) (resp : HttpResult StartBody) :
    (E2eTest.runScenario t name resp = .error RunError.transportExn ↔ resp = .exn) ∧
    (∀ t' b, E2eTest.runScenario t name resp = .ok (t', b) →
      (b = true ↔ ∃ body, resp = .resp 200 body ∧ body.success = true)) ∧
    (∀ code body, resp = .resp code body →
      E2eTest.runScenario t name resp =
        if code = 200 then
          .ok ({ t with scenario_name := some name, run_id := some body.id }, body.success)
        else
          .ok ({ t with scenario_name := some name }, false)) := by
  refine ⟨?_, ?_, ?_⟩
  · cases resp with
    | exn => simp [E2eTest.runScenario, E2eTest.runTest]
    | resp code body =>
      by_cases hc : code = 200 <;>
        simp [E2eTest.runScenario, E2eTest.runTest, hc]
  · intro t' b h
    cases resp with
    | exn => simp [E2eTest.runScenario, E2eTest.runTest] at h
    | resp code body =>
      by_cases hc : code = 200
      · subst hc
        have hrun : E2eTest.runScenario t name (.resp 200 body) =
            .ok ({ t with scenario_name := some name, run_id := some body.id },
              body.success) := by
          simp [E2eTest.runScenario, E2eTest.runTest]
        rw [hrun] at h
        simp only [Except.ok.injEq, Prod.mk.injEq] at h
        constructor
        · intro hb
          refine ⟨body, rfl, ?_⟩
          rw [h.2, hb]
        · rintro ⟨body', hb', hs'⟩
          injection hb' with _ hb2
          rw [← h.2, hb2]
          exact hs'
      · have hrun : E2eTest.runScenario t name (.resp code body) =
            .ok ({ t with scenario_name := some name }, false) := by
          simp [E2eTest.runScenario, E2eTest.runTest, hc]
        rw [hrun] at h
        simp only [Except.ok.injEq, Prod.mk.injEq] at h
        constructor
        · intro hb
          rw [← h.2] at hb
          exact absurd hb (by simp)
        · rintro ⟨body', hb', -⟩
          injection hb' with hcode _
          exact absurd hcode hc
  · intro code body hresp
    subst hresp
    by_cases hc : code = 200 <;>
      simp [E2eTest.runScenario, E2eTest.runTest, hc]

/-- C2 witness: a 200 response with a true success indicator returns true and
records both the scenario name and the run identifier. -/
theorem c2_start_semantics_witness :
    E2eTest.runScenario E2eTest.new "run_sanity_check" (HttpResult.resp 200 ⟨"r7", true⟩) =
      .ok (⟨some "run_sanity_check", some "r7", .empty⟩, true) := by
  have h := (c2_start_semantics E2eTest.new "run_sanity_check"
      (HttpResult.resp 200 ⟨"r7", true⟩)).2.2 200 ⟨"r7", true⟩ rfl
  simpa [E2eTest.new] using h

/-! ### Claim C6 -/

/-- C6: a status fetch answered with a non-200 transport status leaves the
runner's cached status payload (indeed the whole runner) unchanged, and in
the coordinator's fetch phase the resulting runner at position j is obtained
from runner j's own previous state and runner j's own response alone, so a
fetch for one runner never changes another runner's recorded status. -/
theorem c6_fetch_frame :
    (∀ (t t' : E2eTest) (code : Nat) (body : StatusPayload),
      code ≠ 200 → E2eTest.get_status t (.resp code body) = .ok t' → t' = t) ∧
    (∀ (env : Env) (i : Nat) (tests : List E2eTest) (evs : List Event)
        (tests' : List E2eTest),
      E2eTests.fetch_all env i tests 0 = (evs, .ok tests') →
      tests'.length = tests.length ∧
        ∀ j (hj : j < tests.length) (hj' : j < tests'.length),
          (tests.get ⟨j, hj⟩).get_status (env.statusResp i j) =
            .ok (tests'.get ⟨j, hj'⟩)) := by
  constructor
  · intro t t' code body hc h
    simp only [E2eTest.get_status, if_neg hc, Except.ok.injEq] at h
    exact h.symm
  · intro env i tests evs tests' h
    rcases E2eTests.fetch_all_ok_elem env i tests 0 evs tests' h with ⟨hlen, helem⟩
    refine ⟨hlen, ?_⟩
    intro j hj hj'
    have := helem j hj hj'
    simpa using this

/-- C6 witness: applying the frame property at a concrete runner whose fetch
got a 503 response. -/
theorem c6_fetch_frame_witness :
    (⟨some "run_casi_sanity", some "r9", .withStatus RUNNING_STATUS⟩ : E2eTest) =
      ⟨some "run_casi_sanity", some "r9", .withStatus RUNNING_STATUS⟩ :=
  c6_fetch_frame.1 ⟨some "run_casi_sanity", some "r9", .withStatus RUNNING_STATUS⟩
    ⟨some "run_casi_sanity", some "r9", .withStatus RUNNING_STATUS⟩ 503 .empty
    (by decide) rfl

/-! ### Claim C5 -/

/-- C5: the run returns successfully with `did_succeed = true` only when the
final polling evaluation observed every started scenario's fetched status
equal to "succeeded"; an abnormal termination (uncaught network error or
`KeyError`) surfaces as an error result, never as a successful return. -/
theorem c5_success_only_all_succeeded (env : Env) (names : List String) (st : E2eTests)
    (h : (E2eTests.run_all env names E2eTests.new).2 = .ok (st, true)) :
    st.did_succeed = true ∧
      ∀ t ∈ st.all_tests, t.status = .withStatus SUCCESS_STATUS := by
  rcases hS : E2eTests.start_all env 0 names (E2eTests.afterTime env E2eTests.new) with
    ⟨evs, rs⟩
  cases rs with
  | error e =>
    rw [E2eTests.run_all_eq_of_start_err env names E2eTests.new evs e hS] at h
    simp at h
  | ok sflag =>
    rcases sflag with ⟨st2, flag⟩
    have hinv := E2eTests.start_all_ok_inv env names 0 _ evs st2 flag hS
    have hds2 : st2.did_succeed = false := by
      rw [hinv.1]; rfl
    cases flag with
    | false =>
      rw [E2eTests.run_all_eq_of_start_fail env names E2eTests.new evs st2 hS] at h
      simp only [Except.ok.injEq, Prod.mk.injEq] at h
      rw [hds2] at h
      exact absurd h.2 (by simp)
    | true =>
      rcases hW : E2eTests.while_loop env NUM_OF_WAIT_ITER 0 st2 with ⟨evsW, rW⟩
      cases rW with
      | error e =>
        rw [E2eTests.run_all_eq_of_loop_err env names E2eTests.new evs evsW st2 e hS
          (E2eTests.status_loop_err env st2 evsW e hW)] at h
        simp at h
      | ok sti =>
        rcases sti with ⟨st3, i⟩
        have hwinv := E2eTests.while_loop_ok_inv env NUM_OF_WAIT_ITER 0 st2 evsW st3 i hW
        have hst3 : st3.start_time = some (env.clock E2eTests.new.clockIdx) := by
          rw [hwinv.1, hinv.2.1]; rfl
        have hL := E2eTests.status_loop_eq env st2 st3 evsW i
          (env.clock E2eTests.new.clockIdx) hW hst3
        rw [E2eTests.run_all_eq_of_loop_ok env names E2eTests.new evs _ st2 _ hS hL] at h
        simp only [Except.ok.injEq, Prod.mk.injEq] at h
        have hdid : st3.did_succeed = true := h.2
        have hall := E2eTests.while_loop_success_elim env NUM_OF_WAIT_ITER 0 st2 evsW st3 i
          hds2 hW hdid
        rw [← h.1]
        exact ⟨hdid, hall⟩

/-- C5 witness: a concrete run in which both scenarios start successfully and
report "succeeded" at the first poll; the theorem yields that the final state
records success with every cached status equal to "succeeded". -/
theorem c5_success_only_all_succeeded_witness :
    (⟨[⟨some "a", some "rid", .withStatus SUCCESS_STATUS⟩,
        ⟨some "b", some "rid", .withStatus SUCCESS_STATUS⟩], true, some 0, 5⟩ :
      E2eTests).did_succeed = true ∧
      ∀ t ∈ (⟨[⟨some "a", some "rid", .withStatus SUCCESS_STATUS⟩,
          ⟨some "b", some "rid", .withStatus SUCCESS_STATUS⟩], true, some 0, 5⟩ :
        E2eTests).all_tests, t.status = .withStatus SUCCESS_STATUS :=
  c5_success_only_all_succeeded envImmediateSuccess ["a", "b"]
    ⟨[⟨some "a", some "rid", .withStatus SUCCESS_STATUS⟩,
      ⟨some "b", some "rid", .withStatus SUCCESS_STATUS⟩], true, some 0, 5⟩
    (by rfl)

/-! ### Claim C9 -/

/-- C9: if the start call at position i of the sequence reports failure (all
earlier starts having succeeded), then no start call is issued for any later
position (exactly i+1 start calls occur), no polling iteration ever runs and
no run identifier is ever polled (no status fetch occurs), only the i
scenarios whose start succeeded have a runner in `all_tests`, and the run
returns unsuccessful — without any summary notification. -/
theorem c9_start_failure_aborts (env : Env) (names : List String) (i : Nat)
    (hi : i < names.length)
    (hprev : ∀ j, j < i → ∃ body, env.startResp j = .resp 200 body ∧ body.success = true)
    (hfail : startRespFails (env.startResp i)) :
    ∃ st', (E2eTests.run_all env names E2eTests.new).2 = .ok (st', false) ∧
      st'.did_succeed = false ∧
      st'.all_tests.map E2eTest.scenario_name = (names.take i).map some ∧
      startCallCount (E2eTests.run_all env names E2eTests.new).1 = i + 1 ∧
      iterCount (E2eTests.run_all env names E2eTests.new).1 = 0 ∧
      (∀ e ∈ (E2eTests.run_all env names E2eTests.new).1, e.isStatusFetch = false) ∧
      notifyCount (E2eTests.run_all env names E2eTests.new).1 = 0 := by
  rcases E2eTests.start_all_fail_at env names i 0 (E2eTests.afterTime env E2eTests.new) hi
      (by intro j hj; simpa using hprev j hj)
      (by simpa using hfail) with
    ⟨evs, st', heq, hcount, hclass, hnames, hds, hst, hck⟩
  have hds' : st'.did_succeed = false := by rw [hds]; rfl
  have hrun := E2eTests.run_all_eq_of_start_fail env names E2eTests.new evs st' heq
  rw [hds'] at hrun
  refine ⟨st', ?_, hds', ?_, ?_, ?_, ?_, ?_⟩
  · rw [hrun]
  · rw [hnames]
    simp [E2eTests.afterTime, E2eTests.new]
  · rw [hrun]
    exact hcount
  · rw [hrun]
    exact countP_zero_of_all_false (fun e he => (hclass e he).2.1)
  · rw [hrun]
    intro e he
    exact (hclass e he).2.2.1
  · rw [hrun]
    exact countP_zero_of_all_false (fun e he => (hclass e he).1)

/-- C9 witness: three scenarios, the second start reports failure — exactly
two start calls are made, nothing is polled, and only the first scenario ever
got a runner. -/
theorem c9_start_failure_aborts_witness :
    ∃ st', (E2eTests.run_all envSecondStartFails ["a", "b", "c"] E2eTests.new).2 =
        .ok (st', false) ∧
      st'.did_succeed = false ∧
      st'.all_tests.map E2eTest.scenario_name = ((["a", "b", "c"].take 1).map some) ∧
      startCallCount (E2eTests.run_all envSecondStartFails ["a", "b", "c"] E2eTests.new).1 =
        1 + 1 ∧
      iterCount (E2eTests.run_all envSecondStartFails ["a", "b", "c"] E2eTests.new).1 = 0 ∧
      (∀ e ∈ (E2eTests.run_all envSecondStartFails ["a", "b", "c"] E2eTests.new).1,
        e.isStatusFetch = false) ∧
      notifyCount (E2eTests.run_all envSecondStartFails ["a", "b", "c"] E2eTests.new).1 = 0 :=
  c9_start_failure_aborts envSecondStartFails ["a", "b", "c"] 1 (by decide)
    (by
      intro j hj
      have hj0 : j = 0 := by omega
      subst hj0
      exact ⟨⟨"r0", true⟩, rfl, rfl⟩)
    ⟨200, ⟨"r1", false⟩, rfl, Or.inr rfl⟩

/-! ### Claim C8 -/

/-- C8: for every scenario-name sequence, if every start call succeeds and
every status fetch reports "succeeded" from the first poll on, the run
returns success after exactly one polling iteration, with no inter-iteration
sleep. -/
theorem c8_immediate_success (env : Env) (names : List String)
    (hstart : ∀ j, j < names.length →
      ∃ body, env.startResp j = .resp 200 body ∧ body.success = true)
    (hstatus : ∀ i k, env.statusResp i k = .resp 200 (.withStatus SUCCESS_STATUS)) :
    ∃ st, (E2eTests.run_all env names E2eTests.new).2 = .ok (st, true) ∧
      st.did_succeed = true ∧
      iterCount (E2eTests.run_all env names E2eTests.new).1 = 1 ∧
      pollSleepCount (E2eTests.run_all env names E2eTests.new).1 = 0 := by
  rcases E2eTests.start_all_all_success env names 0 (E2eTests.afterTime env E2eTests.new)
      (by intro j hj; simpa using hstart j hj) with ⟨built, heq, hblen, hbnames, hbst⟩
  set st2 : E2eTests :=
    { E2eTests.afterTime env E2eTests.new with
      all_tests := (E2eTests.afterTime env E2eTests.new).all_tests ++ built } with hst2
  have hnoexn : ∀ j, j < st2.all_tests.length → env.statusResp 0 (0 + j) ≠ .exn := by
    intro j _
    rw [hstatus 0 (0 + j)]
    simp
  have hF := E2eTests.fetch_all_eq_pure env 0 st2.all_tests 0 hnoexn
  set tests1 : List E2eTest := E2eTests.fetch_pure env 0 st2.all_tests 0 with htests1
  have hsucc : ∀ t ∈ tests1, t.status = .withStatus SUCCESS_STATUS := by
    refine E2eTests.fetch_pure_status_const env 0 SUCCESS_STATUS st2.all_tests 0 ?_
    intro j _
    exact hstatus 0 (0 + j)
  have hne : ∀ t ∈ tests1, t.status ≠ .empty := by
    intro t ht
    rw [hsucc t ht]
    simp
  have hE : E2eTests.eval_tests tests1 st2.clockIdx tests1 true =
      .ok (true, false, st2.clockIdx) :=
    E2eTests.eval_tests_all_success tests1 st2.clockIdx tests1 true hsucc
  have hP : E2eTests.print_status tests1 st2.clockIdx = .ok (st2.clockIdx + tests1.length) :=
    E2eTests.print_status_ok tests1 st2.clockIdx hne
  have h15 : NUM_OF_WAIT_ITER = 14 + 1 := rfl
  obtain ⟨st3, hst3⟩ : ∃ st3 : E2eTests,
      ({ st2 with
        all_tests := tests1,
        did_succeed := true,
        clockIdx := st2.clockIdx + tests1.length } : E2eTests) = st3 := ⟨_, rfl⟩
  have hW : E2eTests.while_loop env NUM_OF_WAIT_ITER 0 st2 =
      (Event.iterStart 1 :: fetchTrace 0 0 st2.all_tests.length, .ok (st3, 0)) := by
    rw [h15, ← hst3]
    exact E2eTests.while_loop_succ_break env 14 0 st2 _ tests1 st2.clockIdx
      (st2.clockIdx + tests1.length) hF hE hP
  have hst3time : st3.start_time = some (env.clock E2eTests.new.clockIdx) := by
    rw [← hst3]
    rfl
  have hdid3 : st3.did_succeed = true := by
    rw [← hst3]
  have hL := E2eTests.status_loop_eq env st2 st3
    (Event.iterStart 1 :: fetchTrace 0 0 st2.all_tests.length) 0
    (env.clock E2eTests.new.clockIdx) hW hst3time
  rw [if_neg (by decide : ¬(0 = NUM_OF_WAIT_ITER))] at hL
  have hrun := E2eTests.run_all_eq_of_loop_ok env names E2eTests.new
    (startTrace names) _ st2 _ heq hL
  refine ⟨({ st3 with clockIdx := st3.clockIdx + 2 } : E2eTests), ?_, ?_, ?_, ?_⟩
  · rw [hrun]
    simp [hdid3]
  · exact hdid3
  · rw [hrun]
    have hz1 : iterCount (startTrace names) = 0 :=
      countP_zero_of_all_false (fun e he => (startTrace_classes names e he).2.1)
    simp only [iterCount] at hz1 ⊢
    simp [List.countP_append, List.countP_cons, hz1, Event.isIterStart]
    intro a ha
    exact (Event.isStatusFetch_classes (fetchTrace_mem 0 _ 0 a ha)).2.2.1
  · rw [hrun]
    have hz1 : pollSleepCount (startTrace names) = 0 :=
      countP_zero_of_all_false (fun e he => (startTrace_classes names e he).2.2.2)
    simp only [pollSleepCount] at hz1 ⊢
    simp [List.countP_append, List.countP_cons, hz1, Event.isPollSleep]
    intro a ha
    exact (Event.isStatusFetch_classes (fetchTrace_mem 0 _ 0 a ha)).2.2.2

/-- C8 witness: two scenarios, both start fine and report "succeeded"
immediately — one iteration, zero poll sleeps, successful return. -/
theorem c8_immediate_success_witness :
    ∃ st, (E2eTests.run_all envImmediateSuccess ["a", "b"] E2eTests.new).2 = .ok (st, true) ∧
      st.did_succeed = true ∧
      iterCount (E2eTests.run_all envImmediateSuccess ["a", "b"] E2eTests.new).1 = 1 ∧
      pollSleepCount (E2eTests.run_all envImmediateSuccess ["a", "b"] E2eTests.new).1 = 0 :=
  c8_immediate_success envImmediateSuccess ["a", "b"]
    (by intro j hj; exact ⟨⟨"rid", true⟩, rfl, rfl⟩)
    (fun i k => rfl)

/-! ### Claim C3 -/

theorem E2eTests.while_loop_all_running (env : Env)
    (hresp : ∀ i k, env.statusResp i k = .resp 200 (.withStatus RUNNING_STATUS)) :
    ∀ (fuel i : Nat) (st : E2eTests), st.all_tests ≠ [] →
      ∃ evs st', E2eTests.while_loop env fuel i st = (evs, .ok (st', i + fuel)) ∧
        iterCount evs = fuel ∧ pollSleepCount evs = fuel ∧
        st'.did_succeed = st.did_succeed ∧ st'.start_time = st.start_time ∧
        st'.all_tests ≠ [] := by
  intro fuel
  induction fuel with
  | zero =>
    intro i st hne
    refine ⟨[], st, ?_, rfl, rfl, rfl, rfl, hne⟩
    rw [Nat.add_zero]
    exact E2eTests.while_loop_zero env i st
  | succ fuel ih =>
    intro i st hne
    have hnoexn : ∀ j, j < st.all_tests.length → env.statusResp i (0 + j) ≠ .exn := by
      intro j _
      rw [hresp i (0 + j)]
      simp
    have hF := E2eTests.fetch_all_eq_pure env i st.all_tests 0 hnoexn
    have hrun1 : ∀ t ∈ E2eTests.fetch_pure env i st.all_tests 0,
        t.status = .withStatus RUNNING_STATUS :=
      E2eTests.fetch_pure_status_const env i RUNNING_STATUS st.all_tests 0
        (fun j _ => hresp i (0 + j))
    have hne1 : E2eTests.fetch_pure env i st.all_tests 0 ≠ [] := by
      intro hnil
      apply hne
      have hl := E2eTests.fetch_pure_length env i st.all_tests 0
      rw [hnil] at hl
      exact List.length_eq_zero.mp hl.symm
    have hE := E2eTests.eval_tests_running_nonempty
      (E2eTests.fetch_pure env i st.all_tests 0) st.clockIdx
      (E2eTests.fetch_pure env i st.all_tests 0) true hrun1 hne1
    have hneE : ∀ t ∈ E2eTests.fetch_pure env i st.all_tests 0, t.status ≠ .empty := by
      intro t ht
      rw [hrun1 t ht]
      simp
    have hP := E2eTests.print_status_ok
      (E2eTests.fetch_pure env i st.all_tests 0) st.clockIdx hneE
    obtain ⟨st2, hst2⟩ : ∃ st2 : E2eTests,
        ({ st with
          all_tests := E2eTests.fetch_pure env i st.all_tests 0,
          clockIdx := st.clockIdx +
            (E2eTests.fetch_pure env i st.all_tests 0).length } : E2eTests) = st2 :=
      ⟨_, rfl⟩
    have hne2 : st2.all_tests ≠ [] := by
      rw [← hst2]
      exact hne1
    rcases ih (i + 1) st2 hne2 with ⟨evs', st', hW, hIc, hPc, hDs, hSt, hNe⟩
    rw [← hst2] at hW
    have hweq := E2eTests.while_loop_continue env fuel i st
      (fetchTrace i 0 st.all_tests.length) evs'
      (E2eTests.fetch_pure env i st.all_tests 0) st.clockIdx
      (st.clockIdx + (E2eTests.fetch_pure env i st.all_tests 0).length)
      (.ok (st', i + 1 + fuel)) hF hE hP hW
    have hidx : i + 1 + fuel = i + (fuel + 1) := by omega
    rw [hidx] at hweq
    refine ⟨_, st', hweq, ?_, ?_, ?_, ?_, hNe⟩
    · simp only [iterCount] at hIc ⊢
      simp [List.countP_append, List.countP_cons, hIc, Event.isIterStart]
      intro a ha
      exact (Event.isStatusFetch_classes (fetchTrace_mem i _ 0 a ha)).2.2.1
    · simp only [pollSleepCount] at hPc ⊢
      simp [List.countP_append, List.countP_cons, hPc, Event.isPollSleep]
      intro a ha
      exact (Event.isStatusFetch_classes (fetchTrace_mem i _ 0 a ha)).2.2.2
    · rw [hDs, ← hst2]
    · rw [hSt, ← hst2]

/-- C3 counterexample: with every scenario reporting "running" on every
fetch, the run performs exactly NUM_OF_WAIT_ITER (15) polling iterations but
also NUM_OF_WAIT_ITER inter-iteration sleeps — not NUM_OF_WAIT_ITER - 1 as
the claim states (the final iteration sleeps before the guard fails). -/
theorem c3_counterexample :
    iterCount (E2eTests.run_all envAllRunning TESTS_TO_EXECUTE E2eTests.new).1 =
      NUM_OF_WAIT_ITER ∧
    pollSleepCount (E2eTests.run_all envAllRunning TESTS_TO_EXECUTE E2eTests.new).1 =
      NUM_OF_WAIT_ITER ∧
    pollSleepCount (E2eTests.run_all envAllRunning TESTS_TO_EXECUTE E2eTests.new).1 ≠
      NUM_OF_WAIT_ITER - 1 := by
  decide

/-- C3 (amended): if every started scenario's fetched status remains
"running" on every fetch, the poll loop performs exactly NUM_OF_WAIT_ITER
iterations and NUM_OF_WAIT_ITER inter-iteration sleeps (one per iteration,
including the last), and the run ends as a timeout-failure. -/
theorem c3_timeout_behaviour (env : Env) (names : List String)
    (hnames : names ≠ [])
    (hstart : ∀ j, j < names.length →
      ∃ body, env.startResp j = .resp 200 body ∧ body.success = true)
    (hstatus : ∀ i k, env.statusResp i k = .resp 200 (.withStatus RUNNING_STATUS)) :
    ∃ st, (E2eTests.run_all env names E2eTests.new).2 = .ok (st, false) ∧
      st.did_succeed = false ∧
      iterCount (E2eTests.run_all env names E2eTests.new).1 = NUM_OF_WAIT_ITER ∧
      pollSleepCount (E2eTests.run_all env names E2eTests.new).1 = NUM_OF_WAIT_ITER ∧
      Event.timeoutLog ∈ (E2eTests.run_all env names E2eTests.new).1 := by
  rcases E2eTests.start_all_all_success env names 0 (E2eTests.afterTime env E2eTests.new)
      (by intro j hj; simpa using hstart j hj) with ⟨built, heq, hblen, hbnames, hbst⟩
  set st2 : E2eTests :=
    { E2eTests.afterTime env E2eTests.new with
      all_tests := (E2eTests.afterTime env E2eTests.new).all_tests ++ built } with hst2
  have hne2 : st2.all_tests ≠ [] := by
    intro hnil
    apply hnames
    have : st2.all_tests = built := rfl
    rw [this] at hnil
    have := hblen
    rw [hnil] at this
    exact List.length_eq_zero.mp this.symm
  rcases E2eTests.while_loop_all_running env hstatus NUM_OF_WAIT_ITER 0 st2 hne2 with
    ⟨evs, st3, hW0, hIc, hPc, hDs, hSt, -⟩
  rw [Nat.zero_add] at hW0
  have hst3time : st3.start_time = some (env.clock E2eTests.new.clockIdx) := by
    rw [hSt]
    rfl
  have hdid3 : st3.did_succeed = false := by
    rw [hDs]
    rfl
  have hL := E2eTests.status_loop_eq env st2 st3 evs NUM_OF_WAIT_ITER
    (env.clock E2eTests.new.clockIdx) hW0 hst3time
  rw [if_pos rfl] at hL
  have hrun := E2eTests.run_all_eq_of_loop_ok env names E2eTests.new
    (startTrace names) _ st2 _ heq hL
  refine ⟨({ st3 with clockIdx := st3.clockIdx + 2 } : E2eTests), ?_, ?_, ?_, ?_, ?_⟩
  · rw [hrun]
    simp [hdid3]
  · exact hdid3
  · rw [hrun]
    have hz1 : iterCount (startTrace names) = 0 :=
      countP_zero_of_all_false (fun e he => (startTrace_classes names e he).2.1)
    simp only [iterCount] at hz1 hIc ⊢
    simp [List.countP_append, List.countP_cons, hz1, hIc, Event.isIterStart]
  · rw [hrun]
    have hz1 : pollSleepCount (startTrace names) = 0 :=
      countP_zero_of_all_false (fun e he => (startTrace_classes names e he).2.2.2)
    simp only [pollSleepCount] at hz1 hPc ⊢
    simp [List.countP_append, List.countP_cons, hz1, hPc, Event.isPollSleep]
  · rw [hrun]
    simp

/-- C3 witness: the amended behaviour on the concrete all-running
environment with a singleton scenario list. -/
theorem c3_timeout_behaviour_witness :
    ∃ st, (E2eTests.run_all envAllRunning ["a"] E2eTests.new).2 = .ok (st, false) ∧
      st.did_succeed = false ∧
      iterCount (E2eTests.run_all envAllRunning ["a"] E2eTests.new).1 = NUM_OF_WAIT_ITER ∧
      pollSleepCount (E2eTests.run_all envAllRunning ["a"] E2eTests.new).1 =
        NUM_OF_WAIT_ITER ∧
      Event.timeoutLog ∈ (E2eTests.run_all envAllRunning ["a"] E2eTests.new).1 :=
  c3_timeout_behaviour envAllRunning ["a"] (by simp)
    (by intro j hj; exact ⟨⟨"rid", true⟩, rfl, rfl⟩)
    (fun i k => rfl)

/-! ### Claim C4 -/

theorem E2eTests.while_loop_ok_of_wf (env : Env)
    (hnoexn : ∀ i k, env.statusResp i k ≠ .exn)
    (hwf : ∀ i k body, env.statusResp i k = .resp 200 body → body ≠ .empty) :
    ∀ (fuel i : Nat) (st : E2eTests),
      ((∀ t ∈ st.all_tests, t.status ≠ .empty) ∨
        (∀ k, k < st.all_tests.length → ∃ body, env.statusResp i k = .resp 200 body)) →
      ∃ evs st' i', E2eTests.while_loop env fuel i st = (evs, .ok (st', i')) := by
  intro fuel
  induction fuel with
  | zero => intro i st _; exact ⟨[], st, i, E2eTests.while_loop_zero env i st⟩
  | succ fuel ih =>
    intro i st hdisj
    have hnoexn' : ∀ j, j < st.all_tests.length → env.statusResp i (0 + j) ≠ .exn :=
      fun j _ => hnoexn i (0 + j)
    have hF := E2eTests.fetch_all_eq_pure env i st.all_tests 0 hnoexn'
    have hne1 : ∀ t ∈ E2eTests.fetch_pure env i st.all_tests 0, t.status ≠ .empty := by
      rcases hdisj with hL | hR
      · exact E2eTests.fetch_pure_ne_empty_of_inv env i st.all_tests 0
          (fun j body hb => hwf i (0 + j) body hb) hL
      · refine E2eTests.fetch_pure_ne_empty_of_fresh env i st.all_tests 0 ?_
        intro j hj
        rcases hR j hj with ⟨body, hb⟩
        have hbne := hwf i j body hb
        cases body with
        | empty => exact absurd rfl hbne
        | withStatus s => exact ⟨s, by simpa using hb⟩
    rcases E2eTests.eval_tests_ok_of_ne_empty (E2eTests.fetch_pure env i st.all_tests 0)
        st.clockIdx hne1 (E2eTests.fetch_pure env i st.all_tests 0) true hne1 with ⟨r, hE⟩
    rcases r with ⟨ap, ba, clk1⟩
    cases ba with
    | true =>
      exact ⟨_, _, _, E2eTests.while_loop_fail_break env fuel i st _ _ ap clk1 hF hE⟩
    | false =>
      have hP := E2eTests.print_status_ok (E2eTests.fetch_pure env i st.all_tests 0)
        clk1 hne1
      cases ap with
      | true =>
        exact ⟨_, _, _, E2eTests.while_loop_succ_break env fuel i st _ _ clk1 _ hF hE hP⟩
      | false =>
        obtain ⟨st2, hst2⟩ : ∃ st2 : E2eTests,
            ({ st with
              all_tests := E2eTests.fetch_pure env i st.all_tests 0,
              clockIdx := clk1 +
                (E2eTests.fetch_pure env i st.all_tests 0).length } : E2eTests) = st2 :=
          ⟨_, rfl⟩
        rcases ih (i + 1) st2 (Or.inl (by rw [← hst2]; exact hne1)) with ⟨evs', st', i', hW⟩
        rw [← hst2] at hW
        exact ⟨_, st', i', E2eTests.while_loop_continue env fuel i st _ evs' _ clk1 _
          (.ok (st', i')) hF hE hP hW⟩

/-- C4 counterexample: when the non-success transport response is a
scenario's first status fetch, its cached payload is still the initial empty
object; the loop's status evaluation then raises a KeyError and the whole run
aborts — the loop does not continue. -/
theorem c4_counterexample :
    (E2eTests.run_all envFetchAlwaysFails TESTS_TO_EXECUTE E2eTests.new).2 =
      .error RunError.keyError := by
  rfl

/-- C4 (amended): a non-success transport response to a single scenario's
status fetch is not itself fatal provided the scenario's cached payload is
already well-formed — in particular, whenever every scenario's first fetch
(iteration 0) succeeds with a well-formed body, the status loop terminates
normally no matter which later fetches return non-success transport
statuses; but when the failed fetch is a scenario's first (cached payload
still the initial empty object), the evaluation raises a KeyError (see
counterexample). -/
theorem c4_fetch_failure_nonfatal (env : Env) (st : E2eTests) (t0 : Nat)
    (hstart : st.start_time = some t0)
    (hnoexn : ∀ i k, env.statusResp i k ≠ .exn)
    (hwf : ∀ i k body, env.statusResp i k = .resp 200 body → body ≠ .empty)
    (hfirst : ∀ k, k < st.all_tests.length →
      ∃ body, env.statusResp 0 k = .resp 200 body) :
    exceptOk (E2eTests.status_loop env st).2 = true := by
  rcases E2eTests.while_loop_ok_of_wf env hnoexn hwf NUM_OF_WAIT_ITER 0 st (Or.inr hfirst)
    with ⟨evs, st', i', hW⟩
  have hst' : st'.start_time = some t0 := by
    rw [(E2eTests.while_loop_ok_inv env NUM_OF_WAIT_ITER 0 st evs st' i' hW).1, hstart]
  rw [E2eTests.status_loop_eq env st st' evs i' t0 hW hst']
  rfl

/-- C4 witness: one started scenario whose first fetch succeeds with
"running" and whose every later fetch gets a 500 — the loop still terminates
normally (it times out, it does not crash). -/
theorem c4_fetch_failure_nonfatal_witness :
    exceptOk (E2eTests.status_loop envStaleFetch
      ⟨[⟨some "a", some "r", .empty⟩], false, some 0, 1⟩).2 = true :=
  c4_fetch_failure_nonfatal envStaleFetch
    ⟨[⟨some "a", some "r", .empty⟩], false, some 0, 1⟩ 0 rfl
    (by
      intro i k
      by_cases h : i = 0 <;> simp [envStaleFetch, h])
    (by
      intro i k body hb
      by_cases h : i = 0
      · subst h
        simp [envStaleFetch] at hb
        rw [← hb]
        simp
      · simp [envStaleFetch, h] at hb)
    (by
      intro k hk
      exact ⟨.withStatus RUNNING_STATUS, by simp [envStaleFetch]⟩)

/-! ### Notification discipline of a normally terminating run -/

theorem E2eTests.run_all_notify_count (env : Env) (names : List String)
    (st : E2eTests) (b : Bool)
    (hrun : (E2eTests.run_all env names E2eTests.new).2 = .ok (st, b)) :
    notifyCount (E2eTests.run_all env names E2eTests.new).1 =
      (if startPhaseOk env names then 1 else 0) := by
  rcases hS : E2eTests.start_all env 0 names (E2eTests.afterTime env E2eTests.new) with
    ⟨evs, rs⟩
  cases rs with
  | error e =>
    rw [E2eTests.run_all_eq_of_start_err env names E2eTests.new evs e hS] at hrun
    simp at hrun
  | ok p =>
    rcases p with ⟨st2, flag⟩
    cases flag with
    | false =>
      have hflag : startPhaseOk env names = false := by simp [startPhaseOk, hS]
      rw [E2eTests.run_all_eq_of_start_fail env names E2eTests.new evs st2 hS, hflag]
      simp only [Bool.false_eq_true, if_false]
      exact countP_zero_of_all_false (fun e he =>
        (E2eTests.start_all_trace env names 0 _ e (by rw [hS]; exact he)).1)
    | true =>
      have hflag : startPhaseOk env names = true := by simp [startPhaseOk, hS]
      rcases hW : E2eTests.while_loop env NUM_OF_WAIT_ITER 0 st2 with ⟨evsW, rW⟩
      cases rW with
      | error e =>
        rw [E2eTests.run_all_eq_of_loop_err env names E2eTests.new evs evsW st2 e hS
          (E2eTests.status_loop_err env st2 evsW e hW)] at hrun
        simp at hrun
      | ok p2 =>
        rcases p2 with ⟨st3, i⟩
        have hinv := E2eTests.start_all_ok_inv env names 0 _ evs st2 true hS
        have hwinv := E2eTests.while_loop_ok_inv env NUM_OF_WAIT_ITER 0 st2 evsW st3 i hW
        have hst3 : st3.start_time = some (env.clock E2eTests.new.clockIdx) := by
          rw [hwinv.1, hinv.2.1]
          rfl
        have hL := E2eTests.status_loop_eq env st2 st3 evsW i
          (env.clock E2eTests.new.clockIdx) hW hst3
        rw [E2eTests.run_all_eq_of_loop_ok env names E2eTests.new evs _ st2 _ hS hL, hflag]
        simp only [if_true]
        have hz1 : notifyCount evs = 0 := countP_zero_of_all_false (fun e he =>
          (E2eTests.start_all_trace env names 0 _ e (by rw [hS]; exact he)).1)
        have hz2 : notifyCount evsW = 0 := countP_zero_of_all_false (fun e he =>
          (E2eTests.while_loop_trace env NUM_OF_WAIT_ITER 0 st2 e (by rw [hW]; exact he)).1)
        simp only [notifyCount] at hz1 hz2 ⊢
        by_cases hi : i = NUM_OF_WAIT_ITER
        · rw [if_pos hi]
          simp [List.countP_append, List.countP_cons, hz1, hz2, Event.isNotify]
        · rw [if_neg hi]
          simp [List.countP_append, List.countP_cons, hz1, hz2, Event.isNotify]

theorem E2eTests.run_all_notify_nonneg (env : Env) (names : List String)
    (st : E2eTests) (b : Bool)
    (hmono : ∀ a b' : Nat, a ≤ b' → env.clock a ≤ env.clock b')
    (hrun : (E2eTests.run_all env names E2eTests.new).2 = .ok (st, b)) :
    ∀ ti sa co el,
      Event.notify ti sa co el ∈ (E2eTests.run_all env names E2eTests.new).1 → 0 ≤ el := by
  rcases hS : E2eTests.start_all env 0 names (E2eTests.afterTime env E2eTests.new) with
    ⟨evs, rs⟩
  cases rs with
  | error e =>
    rw [E2eTests.run_all_eq_of_start_err env names E2eTests.new evs e hS] at hrun
    simp at hrun
  | ok p =>
    rcases p with ⟨st2, flag⟩
    cases flag with
    | false =>
      rw [E2eTests.run_all_eq_of_start_fail env names E2eTests.new evs st2 hS]
      intro ti sa co el hmem
      exfalso
      have := (E2eTests.start_all_trace env names 0 _ _ (by rw [hS]; exact hmem)).1
      simp [Event.isNotify] at this
    | true =>
      rcases hW : E2eTests.while_loop env NUM_OF_WAIT_ITER 0 st2 with ⟨evsW, rW⟩
      cases rW with
      | error e =>
        rw [E2eTests.run_all_eq_of_loop_err env names E2eTests.new evs evsW st2 e hS
          (E2eTests.status_loop_err env st2 evsW e hW)] at hrun
        simp at hrun
      | ok p2 =>
        rcases p2 with ⟨st3, i⟩
        have hinv := E2eTests.start_all_ok_inv env names 0 _ evs st2 true hS
        have hwinv := E2eTests.while_loop_ok_inv env NUM_OF_WAIT_ITER 0 st2 evsW st3 i hW
        have hst3 : st3.start_time = some (env.clock E2eTests.new.clockIdx) := by
          rw [hwinv.1, hinv.2.1]
          rfl
        have hL := E2eTests.status_loop_eq env st2 st3 evsW i
          (env.clock E2eTests.new.clockIdx) hW hst3
        rw [E2eTests.run_all_eq_of_loop_ok env names E2eTests.new evs _ st2 _ hS hL]
        intro ti sa co el hmem
        rw [List.mem_append] at hmem
        rcases hmem with hm | hm
        · exfalso
          have := (E2eTests.start_all_trace env names 0 _ _ (by rw [hS]; exact hm)).1
          simp [Event.isNotify] at this
        · rw [List.mem_append] at hm
          rcases hm with hm | hm
          · have hmW : Event.notify ti sa co el ∈ evsW ∨
                Event.notify ti sa co el = Event.timeoutLog := by
              by_cases hi : i = NUM_OF_WAIT_ITER
              · rw [if_pos hi] at hm
                rw [List.mem_append, List.mem_singleton] at hm
                exact hm
              · rw [if_neg hi] at hm
                exact Or.inl hm
            rcases hmW with hmW | hmW
            · exfalso
              have := (E2eTests.while_loop_trace env NUM_OF_WAIT_ITER 0 st2 _
                (by rw [hW]; exact hmW)).1
              simp [Event.isNotify] at this
            · exact absurd hmW (by simp)
          · rw [List.mem_singleton] at hm
            injection hm with h1 h2 h3 hel
            rw [hel]
            have h3' : st2.clockIdx = E2eTests.new.clockIdx + 1 := by
              rw [hinv.2.2]
              rfl
            have h1' : E2eTests.new.clockIdx ≤ st3.clockIdx := by
              have h2' := hwinv.2.1
              omega
            have := hmono E2eTests.new.clockIdx st3.clockIdx h1'
            omega

/-! ### Claim C1 -/

/-- C1 counterexample: an invocation whose first start call fails terminates
normally and posts no summary notification at all — not exactly one. -/
theorem c1_counterexample :
    notifyCount (E2eTests.run_all envFirstStartFails TESTS_TO_EXECUTE E2eTests.new).1 = 0 ∧
    exceptOk (E2eTests.run_all envFirstStartFails TESTS_TO_EXECUTE E2eTests.new).2 = true := by
  decide

/-- C1 (amended): for every invocation of `run_all` that terminates without
an uncaught exception, exactly one summary notification is posted when every
start call succeeded (the success, scenario-failure and timeout paths all
reach `on_end`), and none is posted when some start call reported failure
(`run_all` returns before `status_loop`); under a monotone clock every
notification's reported elapsed duration is non-negative. -/
theorem c1_notification_discipline (env : Env) (names : List String)
    (st : E2eTests) (b : Bool)
    (hmono : ∀ a b' : Nat, a ≤ b' → env.clock a ≤ env.clock b')
    (hrun : (E2eTests.run_all env names E2eTests.new).2 = .ok (st, b)) :
    notifyCount (E2eTests.run_all env names E2eTests.new).1 =
      (if startPhaseOk env names then 1 else 0) ∧
    ∀ ti sa co el,
      Event.notify ti sa co el ∈ (E2eTests.run_all env names E2eTests.new).1 → 0 ≤ el :=
  ⟨E2eTests.run_all_notify_count env names st b hrun,
    E2eTests.run_all_notify_nonneg env names st b hmono hrun⟩

/-- C1 witness: the start-failure invocation of the counterexample, fed
through the amended theorem. -/
theorem c1_notification_discipline_witness :
    notifyCount (E2eTests.run_all envFirstStartFails ["a", "b"] E2eTests.new).1 =
      (if startPhaseOk envFirstStartFails ["a", "b"] then 1 else 0) ∧
    ∀ ti sa co el,
      Event.notify ti sa co el ∈
        (E2eTests.run_all envFirstStartFails ["a", "b"] E2eTests.new).1 → 0 ≤ el :=
  c1_notification_discipline envFirstStartFails ["a", "b"]
    ⟨[], false, some 0, 1⟩ false (fun _ _ h => h) rfl

/-! ### Claim C10 -/

/-- C10 counterexample: on a start failure the process raises the fatal
RuntimeError even though no summary notification was ever sent, refuting
"the signal is emitted only after the summary notification has been
sent". -/
theorem c10_counterexample :
    (main_block envSecondStartFails TESTS_TO_EXECUTE).2 = .error RunError.runtimeError ∧
    notifyCount (main_block envSecondStartFails TESTS_TO_EXECUTE).1 = 0 :=
  ⟨rfl, by decide⟩

/-- C10 (amended): the `__main__` block raises the fatal RuntimeError exactly
when the run returned unsuccessfully and raises nothing on success; the raise
adds no events (it comes after the whole trace, hence after any
notification); on every unsuccessful run whose start phase fully succeeded
the summary notification is in the trace before the raise — but a run
aborted by a start failure raises without any notification having been
sent. -/
theorem c10_exit_discipline (env : Env) (names : List String) :
    ((∃ st, (E2eTests.run_all env names E2eTests.new).2 = .ok (st, true)) →
      (main_block env names).2 = .ok ()) ∧
    ((∃ st, (E2eTests.run_all env names E2eTests.new).2 = .ok (st, false)) →
      (main_block env names).2 = .error RunError.runtimeError) ∧
    (main_block env names).1 = (E2eTests.run_all env names E2eTests.new).1 ∧
    (∀ st, (E2eTests.run_all env names E2eTests.new).2 = .ok (st, false) →
      startPhaseOk env names = true →
      notifyCount (main_block env names).1 = 1) := by
  rcases hR : E2eTests.run_all env names E2eTests.new with ⟨evs, r⟩
  have htrace : (main_block env names).1 = evs := by
    cases r with
    | error e => simp [main_block, hR]
    | ok p =>
      rcases p with ⟨stx, bx⟩
      cases bx with
      | true => simp [main_block, hR]
      | false => simp [main_block, hR]
  refine ⟨?_, ?_, by rw [htrace], ?_⟩
  · rintro ⟨st, hok⟩
    have hok' : r = .ok (st, true) := hok
    rw [hok'] at hR
    simp [main_block, hR]
  · rintro ⟨st, hok⟩
    have hok' : r = .ok (st, false) := hok
    rw [hok'] at hR
    simp [main_block, hR]
  · intro st hok hflag
    have hok' : (E2eTests.run_all env names E2eTests.new).2 = .ok (st, false) := by
      rw [hR]
      exact hok
    have hcount := E2eTests.run_all_notify_count env names st false hok'
    rw [hflag] at hcount
    simp only [if_true] at hcount
    rw [htrace]
    rw [hR] at hcount
    exact hcount

/-- C10 witness: a start-failure invocation raises the fatal error. -/
theorem c10_exit_discipline_witness :
    (main_block envFirstStartFails ["a", "b"]).2 = .error RunError.runtimeError :=
  (c10_exit_discipline envFirstStartFails ["a", "b"]).2.1 ⟨⟨[], false, some 0, 1⟩, rfl⟩

/-! ### Claim C7: indexed lemmas about the fetch and evaluation phases -/

theorem E2eTests.fetch_pure_get_status (env : Env) (i : Nat) :
    ∀ (tests : List E2eTest) (k0 j : Nat), j < tests.length → ∀ s' : String,
      env.statusResp i (k0 + j) = .resp 200 (.withStatus s') →
      ∀ hj' : j < (E2eTests.fetch_pure env i tests k0).length,
        ((E2eTests.fetch_pure env i tests k0).get ⟨j, hj'⟩).status = .withStatus s' := by
  intro tests
  induction tests with
  | nil => intro k0 j hj; simp at hj
  | cons t rest ih =>
    intro k0 j hj s' hresp hj'
    cases j with
    | zero =>
      rw [Nat.add_zero] at hresp
      show (E2eTest.get_status_ok t (env.statusResp i k0)).status = .withStatus s'
      rw [hresp]
      simp [E2eTest.get_status_ok]
    | succ m =>
      have hm : m < rest.length := by simpa using hj
      have hresp' : env.statusResp i (k0 + 1 + m) = .resp 200 (.withStatus s') := by
        simpa [Nat.add_assoc, Nat.add_comm 1 m] using hresp
      have hm' : m < (E2eTests.fetch_pure env i rest (k0 + 1)).length := by
        rw [E2eTests.fetch_pure_length]
        exact hm
      have := ih (k0 + 1) m hm s' hresp' hm'
      exact this

theorem E2eTests.eval_tests_no_fail_false (all : List E2eTest) (clk : Nat) :
    ∀ (tests : List E2eTest),
      (∀ t ∈ tests, ∃ s', t.status = .withStatus s' ∧ s' ≠ FAILED_STATUS) →
      E2eTests.eval_tests all clk tests false = .ok (false, false, clk) := by
  intro tests
  induction tests with
  | nil => intro _; rfl
  | cons t rest ih =>
    intro h
    rcases h t (by simp) with ⟨s', hs', hsf⟩
    have hlk : t.status.lookupStatus = .ok s' := by
      rw [StatusPayload.lookupStatus_ok_iff]
      exact hs'
    rw [E2eTests.eval_tests_cons_ok all clk t rest false s' hlk]
    have hbf : (s' == FAILED_STATUS) = false := by
      rw [beq_eq_false_iff_ne]
      exact hsf
    simp only [hbf, Bool.false_eq_true, if_false, Bool.false_and]
    exact ih (fun u hu => h u (by simp [hu]))

theorem E2eTests.eval_tests_not_all_success (all : List E2eTest) (clk : Nat) :
    ∀ (tests : List E2eTest) (ap : Bool),
      (∀ t ∈ tests, ∃ s', t.status = .withStatus s' ∧ s' ≠ FAILED_STATUS) →
      (∃ t ∈ tests, ∃ s', t.status = .withStatus s' ∧ s' ≠ SUCCESS_STATUS) →
      E2eTests.eval_tests all clk tests ap = .ok (false, false, clk) := by
  intro tests
  induction tests with
  | nil => intro ap _ hex; simp at hex
  | cons t rest ih =>
    intro ap h hex
    rcases h t (by simp) with ⟨s', hs', hsf⟩
    have hlk : t.status.lookupStatus = .ok s' := by
      rw [StatusPayload.lookupStatus_ok_iff]
      exact hs'
    rw [E2eTests.eval_tests_cons_ok all clk t rest ap s' hlk]
    have hbf : (s' == FAILED_STATUS) = false := by
      rw [beq_eq_false_iff_ne]
      exact hsf
    simp only [hbf, Bool.false_eq_true, if_false]
    by_cases hss : s' = SUCCESS_STATUS
    · have hex' : ∃ u ∈ rest, ∃ s2, u.status = .withStatus s2 ∧ s2 ≠ SUCCESS_STATUS := by
        rcases hex with ⟨u, hu, s2, hus, hsn⟩
        rcases List.mem_cons.mp hu with rfl | hmem
        · exfalso
          rw [hs'] at hus
          injection hus with he
          exact hsn (by rw [← he]; exact hss)
        · exact ⟨u, hmem, s2, hus, hsn⟩
      exact ih (ap && (s' == SUCCESS_STATUS)) (fun u hu => h u (by simp [hu])) hex'
    · have hbs : (s' == SUCCESS_STATUS) = false := by
        rw [beq_eq_false_iff_ne]
        exact hss
      rw [hbs, Bool.and_false]
      exact E2eTests.eval_tests_no_fail_false all clk rest (fun u hu => h u (by simp [hu]))

theorem E2eTests.while_loop_fail_at (env : Env) (s : Nat → Nat → String)
    (hresp : ∀ i k, env.statusResp i k = .resp 200 (.withStatus (s i k))) :
    ∀ (j fuel i : Nat) (st : E2eTests), j < fuel →
      (∀ i', i ≤ i' → i' < i + j →
        (∀ k, k < st.all_tests.length → s i' k ≠ FAILED_STATUS) ∧
        (∃ k, k < st.all_tests.length ∧ s i' k ≠ SUCCESS_STATUS)) →
      (∃ k, k < st.all_tests.length ∧ s (i + j) k = FAILED_STATUS) →
      ∃ pre st',
        E2eTests.while_loop env fuel i st =
          (pre ++ Event.iterStart (i + j + 1) ::
            (fetchTrace (i + j) 0 st.all_tests.length ++ [Event.failureLog]),
            .ok (st', i + j)) ∧
        st'.did_succeed = st.did_succeed ∧
        iterCount pre = j ∧ pollSleepCount pre = j ∧
        (∀ n, Event.iterStart n ∈ pre → n ≤ i + j) := by
  intro j
  induction j with
  | zero =>
    intro fuel i st hfuel hpre hfail
    cases fuel with
    | zero => omega
    | succ f =>
      have hnoexn : ∀ jj, jj < st.all_tests.length → env.statusResp i (0 + jj) ≠ .exn := by
        intro jj _
        rw [hresp i (0 + jj)]
        simp
      have hF := E2eTests.fetch_all_eq_pure env i st.all_tests 0 hnoexn
      have hlen : (E2eTests.fetch_pure env i st.all_tests 0).length = st.all_tests.length :=
        E2eTests.fetch_pure_length env i st.all_tests 0
      have hstat : ∀ k, ∀ hk : k < (E2eTests.fetch_pure env i st.all_tests 0).length,
          ((E2eTests.fetch_pure env i st.all_tests 0).get ⟨k, hk⟩).status =
            .withStatus (s i k) := by
        intro k hk
        have hk' : k < st.all_tests.length := by rw [← hlen]; exact hk
        exact E2eTests.fetch_pure_get_status env i st.all_tests 0 k hk' (s i k)
          (by simpa using hresp i k) hk
      have hne1 : ∀ t ∈ E2eTests.fetch_pure env i st.all_tests 0, t.status ≠ .empty := by
        intro t ht
        rcases List.mem_iff_get.mp ht with ⟨⟨k, hk⟩, rfl⟩
        rw [hstat k hk]
        simp
      rcases hfail with ⟨k, hk, hsk⟩
      rw [Nat.add_zero] at hsk
      have hk1 : k < (E2eTests.fetch_pure env i st.all_tests 0).length := by
        rw [hlen]; exact hk
      have hfailmem : ∃ t ∈ E2eTests.fetch_pure env i st.all_tests 0,
          t.status = .withStatus FAILED_STATUS := by
        refine ⟨(E2eTests.fetch_pure env i st.all_tests 0).get ⟨k, hk1⟩,
          List.get_mem _ _ _, ?_⟩
        rw [hstat k hk1, hsk]
      rcases E2eTests.eval_tests_detects_failure (E2eTests.fetch_pure env i st.all_tests 0)
          st.clockIdx hne1 (E2eTests.fetch_pure env i st.all_tests 0) true hne1 hfailmem with
        ⟨ap', hE⟩
      obtain ⟨stF, hstF⟩ : ∃ stF : E2eTests,
          ({ st with
            all_tests := E2eTests.fetch_pure env i st.all_tests 0,
            clockIdx := st.clockIdx +
              (E2eTests.fetch_pure env i st.all_tests 0).length } : E2eTests) = stF :=
        ⟨_, rfl⟩
      refine ⟨[], stF, ?_, ?_, rfl, rfl, by intro n hn; simp at hn⟩
      · rw [List.nil_append, Nat.add_zero]
        have heq := E2eTests.while_loop_fail_break env f i st _ _ ap' _ hF hE
        rw [hstF] at heq
        exact heq
      · rw [← hstF]
  | succ m ih =>
    intro fuel i st hfuel hpre hfail
    cases fuel with
    | zero => omega
    | succ f =>
      have hnoexn : ∀ jj, jj < st.all_tests.length → env.statusResp i (0 + jj) ≠ .exn := by
        intro jj _
        rw [hresp i (0 + jj)]
        simp
      have hF := E2eTests.fetch_all_eq_pure env i st.all_tests 0 hnoexn
      have hlen : (E2eTests.fetch_pure env i st.all_tests 0).length = st.all_tests.length :=
        E2eTests.fetch_pure_length env i st.all_tests 0
      have hstat : ∀ k, ∀ hk : k < (E2eTests.fetch_pure env i st.all_tests 0).length,
          ((E2eTests.fetch_pure env i st.all_tests 0).get ⟨k, hk⟩).status =
            .withStatus (s i k) := by
        intro k hk
        have hk' : k < st.all_tests.length := by rw [← hlen]; exact hk
        exact E2eTests.fetch_pure_get_status env i st.all_tests 0 k hk' (s i k)
          (by simpa using hresp i k) hk
      have hcur := hpre i (le_refl i) (by omega)
      have hnofail : ∀ t ∈ E2eTests.fetch_pure env i st.all_tests 0,
          ∃ s', t.status = .withStatus s' ∧ s' ≠ FAILED_STATUS := by
        intro t ht
        rcases List.mem_iff_get.mp ht with ⟨⟨k, hk⟩, rfl⟩
        exact ⟨s i k, hstat k hk, hcur.1 k (by rw [← hlen]; exact hk)⟩
      have hnotall : ∃ t ∈ E2eTests.fetch_pure env i st.all_tests 0,
          ∃ s', t.status = .withStatus s' ∧ s' ≠ SUCCESS_STATUS := by
        rcases hcur.2 with ⟨k, hk, hks⟩
        have hk1 : k < (E2eTests.fetch_pure env i st.all_tests 0).length := by
          rw [hlen]; exact hk
        exact ⟨_, List.get_mem _ _ _, s i k, hstat k hk1, hks⟩
      have hE := E2eTests.eval_tests_not_all_success
        (E2eTests.fetch_pure env i st.all_tests 0) st.clockIdx
        (E2eTests.fetch_pure env i st.all_tests 0) true hnofail hnotall
      have hne1 : ∀ t ∈ E2eTests.fetch_pure env i st.all_tests 0, t.status ≠ .empty := by
        intro t ht
        rcases hnofail t ht with ⟨s', hs', -⟩
        rw [hs']
        simp
      have hP := E2eTests.print_status_ok (E2eTests.fetch_pure env i st.all_tests 0)
        st.clockIdx hne1
      obtain ⟨st2, hst2⟩ : ∃ st2 : E2eTests,
          ({ st with
            all_tests := E2eTests.fetch_pure env i st.all_tests 0,
            clockIdx := st.clockIdx +
              (E2eTests.fetch_pure env i st.all_tests 0).length } : E2eTests) = st2 :=
        ⟨_, rfl⟩
      have hlen2 : st2.all_tests.length = st.all_tests.length := by
        rw [← hst2]
        exact hlen
      have hpre' : ∀ i', i + 1 ≤ i' → i' < i + 1 + m →
          (∀ k, k < st2.all_tests.length → s i' k ≠ FAILED_STATUS) ∧
          (∃ k, k < st2.all_tests.length ∧ s i' k ≠ SUCCESS_STATUS) := by
        intro i' h1 h2
        rw [hlen2]
        exact hpre i' (by omega) (by omega)
      have hfail' : ∃ k, k < st2.all_tests.length ∧ s (i + 1 + m) k = FAILED_STATUS := by
        rw [hlen2]
        have hidx : i + 1 + m = i + (m + 1) := by omega
        rw [hidx]
        exact hfail
      rcases ih f (i + 1) st2 (by omega) hpre' hfail' with ⟨pre', st', hW, hdid, hic, hpc, hmem⟩
      rw [hlen2] at hW
      rw [← hst2] at hW
      have heq := E2eTests.while_loop_continue env f i st
        (fetchTrace i 0 st.all_tests.length)
        (pre' ++ Event.iterStart (i + 1 + m + 1) ::
          (fetchTrace (i + 1 + m) 0 st.all_tests.length ++ [Event.failureLog]))
        (E2eTests.fetch_pure env i st.all_tests 0) st.clockIdx
        (st.clockIdx + (E2eTests.fetch_pure env i st.all_tests 0).length)
        (.ok (st', i + 1 + m)) hF hE hP hW
      have hidx : i + (m + 1) = i + 1 + m := by omega
      refine ⟨Event.iterStart (i + 1) :: (fetchTrace i 0 st.all_tests.length ++
          (Event.sleepEv SLEEP_TIME :: pre')), st', ?_, ?_, ?_, ?_, ?_⟩
      · rw [hidx, heq]
        simp [List.append_assoc, List.cons_append]
      · rw [hdid, ← hst2]
      · have hzf : iterCount (fetchTrace i 0 st.all_tests.length) = 0 :=
          countP_zero_of_all_false (fun e he =>
            (Event.isStatusFetch_classes (fetchTrace_mem i _ 0 e he)).2.2.1)
        simp only [iterCount] at hzf hic ⊢
        simp [List.countP_append, List.countP_cons, hzf, hic, Event.isIterStart]
      · have hzf : pollSleepCount (fetchTrace i 0 st.all_tests.length) = 0 :=
          countP_zero_of_all_false (fun e he =>
            (Event.isStatusFetch_classes (fetchTrace_mem i _ 0 e he)).2.2.2)
        simp only [pollSleepCount] at hzf hpc ⊢
        simp [List.countP_append, List.countP_cons, hzf, hpc, Event.isPollSleep]
      · intro n hn
        simp only [List.mem_cons, List.mem_append] at hn
        rcases hn with hn | hn | hn | hn
        · injection hn with hn1
          omega
        · exfalso
          have := fetchTrace_mem i _ 0 _ hn
          simp [Event.isStatusFetch] at this
        · exact absurd hn (by simp)
        · have := hmem n hn
          omega

/-- C7: if during polling iteration j (0-based; its header log is
`iterStart (j+1)`) some started scenario's fetched status is "failed" —
earlier iterations having seen no failure and no all-success — then the run
ends as a failure during iteration j: the loop performed exactly j+1
iterations, slept only j times (never after the failing iteration), no later
iteration starts, exactly one summary notification follows, and the trace
shows every scenario's status fetch of iteration j before the failure
decision, with no fetch after it. -/
theorem c7_failure_short_circuit (env : Env) (st : E2eTests) (j t0 : Nat)
    (s : Nat → Nat → String)
    (hresp : ∀ i k, env.statusResp i k = .resp 200 (.withStatus (s i k)))
    (hstart : st.start_time = some t0)
    (hds : st.did_succeed = false)
    (hj : j < NUM_OF_WAIT_ITER)
    (hpre : ∀ i', i' < j →
      (∀ k, k < st.all_tests.length → s i' k ≠ FAILED_STATUS) ∧
      (∃ k, k < st.all_tests.length ∧ s i' k ≠ SUCCESS_STATUS))
    (hfail : ∃ k, k < st.all_tests.length ∧ s j k = FAILED_STATUS) :
    ∃ evs st',
      E2eTests.status_loop env st = (evs, .ok st') ∧
      st'.did_succeed = false ∧
      iterCount evs = j + 1 ∧
      pollSleepCount evs = j ∧
      notifyCount evs = 1 ∧
      (∀ n, Event.iterStart n ∈ evs → n ≤ j + 1) ∧
      ∃ pre post,
        evs = pre ++ Event.iterStart (j + 1) ::
          (fetchTrace j 0 st.all_tests.length ++ Event.failureLog :: post) ∧
        (∀ e ∈ post, e.isStatusFetch = false) := by
  have hpre0 : ∀ i', 0 ≤ i' → i' < 0 + j →
      (∀ k, k < st.all_tests.length → s i' k ≠ FAILED_STATUS) ∧
      (∃ k, k < st.all_tests.length ∧ s i' k ≠ SUCCESS_STATUS) := by
    intro i' _ h2
    exact hpre i' (by omega)
  have hfail0 : ∃ k, k < st.all_tests.length ∧ s (0 + j) k = FAILED_STATUS := by
    rw [Nat.zero_add]
    exact hfail
  rcases E2eTests.while_loop_fail_at env s hresp j NUM_OF_WAIT_ITER 0 st hj hpre0 hfail0 with
    ⟨pre, stF, hW, hdid, hic, hpc, hmem⟩
  rw [Nat.zero_add] at hW
  have hmem' : ∀ n, Event.iterStart n ∈ pre → n ≤ j := by
    intro n hn
    have := hmem n hn
    omega
  have hinv := E2eTests.while_loop_ok_inv env NUM_OF_WAIT_ITER 0 st _ stF j hW
  have hstF : stF.start_time = some t0 := by
    rw [hinv.1, hstart]
  have hL := E2eTests.status_loop_eq env st stF _ j t0 hW hstF
  rw [if_neg (by omega : ¬(j = NUM_OF_WAIT_ITER))] at hL
  have hdid' : stF.did_succeed = false := by
    rw [hdid, hds]
  have hzf_iter : iterCount (fetchTrace j 0 st.all_tests.length) = 0 :=
    countP_zero_of_all_false (fun e he =>
      (Event.isStatusFetch_classes (fetchTrace_mem j _ 0 e he)).2.2.1)
  have hzf_sleep : pollSleepCount (fetchTrace j 0 st.all_tests.length) = 0 :=
    countP_zero_of_all_false (fun e he =>
      (Event.isStatusFetch_classes (fetchTrace_mem j _ 0 e he)).2.2.2)
  have hzf_ntf : notifyCount (fetchTrace j 0 st.all_tests.length) = 0 :=
    countP_zero_of_all_false (fun e he =>
      (Event.isStatusFetch_classes (fetchTrace_mem j _ 0 e he)).1)
  have hzp_ntf : notifyCount pre = 0 :=
    countP_zero_of_all_false (fun e he =>
      (E2eTests.while_loop_trace env NUM_OF_WAIT_ITER 0 st e
        (by rw [hW]; simp [he])).1)
  refine ⟨_, _, hL, ?_, ?_, ?_, ?_, ?_, ?_⟩
  · exact hdid'
  · simp only [iterCount] at hzf_iter hic ⊢
    simp [List.countP_append, List.countP_cons, hzf_iter, hic, Event.isIterStart]
  · simp only [pollSleepCount] at hzf_sleep hpc ⊢
    simp [List.countP_append, List.countP_cons, hzf_sleep, hpc, Event.isPollSleep]
  · simp only [notifyCount] at hzf_ntf hzp_ntf ⊢
    simp [List.countP_append, List.countP_cons, hzf_ntf, hzp_ntf, Event.isNotify]
  · intro n hn
    simp only [List.mem_append, List.mem_cons, List.mem_singleton] at hn
    rcases hn with (hn | hn | hn | hn) | hn
    · have := hmem' n hn
      omega
    · injection hn with hn1
      omega
    · exfalso
      have := fetchTrace_mem j _ 0 _ hn
      simp [Event.isStatusFetch] at this
    · exact absurd hn (by simp)
    · exact absurd hn (by simp)
  · refine ⟨pre, [Event.notify "E2E Full Run Ended"
      (if stF.did_succeed then "Passed" else "Failed")
      (if stF.did_succeed then "good" else "danger")
      ((env.clock stF.clockIdx : Int) - (t0 : Int))], ?_, ?_⟩
    · simp [List.append_assoc]
    · intro e he
      rcases List.mem_singleton.mp he with rfl
      rfl

/-- C7 witness: one scenario, "running" in iteration 0 and "failed" in
iteration 1 — the run fails during iteration 1 (the second), with one sleep
and two iterations in the trace. -/
theorem c7_failure_short_circuit_witness :
    ∃ evs st',
      E2eTests.status_loop envFailSecondIter
        ⟨[⟨some "a", some "r", .empty⟩], false, some 0, 0⟩ = (evs, .ok st') ∧
      st'.did_succeed = false ∧
      iterCount evs = 1 + 1 ∧
      pollSleepCount evs = 1 ∧
      notifyCount evs = 1 ∧
      (∀ n, Event.iterStart n ∈ evs → n ≤ 1 + 1) ∧
      ∃ pre post,
        evs = pre ++ Event.iterStart (1 + 1) ::
          (fetchTrace 1 0 (⟨[⟨some "a", some "r", .empty⟩], false, some 0, 0⟩ :
            E2eTests).all_tests.length ++ Event.failureLog :: post) ∧
        (∀ e ∈ post, e.isStatusFetch = false) :=
  c7_failure_short_circuit envFailSecondIter
    ⟨[⟨some "a", some "r", .empty⟩], false, some 0, 0⟩ 1 0 failSecondIterScript
    (fun i k => rfl) rfl rfl (by decide)
    (by
      intro i' hi'
      have hi0 : i' = 0 := by omega
      subst hi0
      constructor
      · intro k hk
        simp [failSecondIterScript, RUNNING_STATUS, FAILED_STATUS]
      · exact ⟨0, by simp,
          by simp [failSecondIterScript, RUNNING_STATUS, SUCCESS_STATUS]⟩)
    ⟨0, by simp, by decide⟩
